import Mathlib

/-!
# Role-based access control of the forum application

A shallow embedding of `src/config/permissions.js`, `src/config/roles.js`,
`src/lib/rbac.js`, `src/config/route-config.js`, `src/lib/auth-middleware.js`,
`middleware.js` and `src/hooks/usePermission.js`, of the link conditions of
`Navigation.jsx`, of the route table of the unit tests, of the forum-lock
handler up to its permission check and of the role-change handler over an
explicit store, followed by the properties established about them.

JavaScript values are embedded by the shapes the evaluator can meet:

* an optional string (`Option String`) stands for a value that is either
  `undefined`/`null` (`none`) or a string;
* a plain object literal is the list of its own properties in the order
  `Object.entries` enumerates them (insertion order for the keys used here,
  none of which is an integer index; `objectEntries` computes that order
  from the declared properties for any table); a property read that misses
  the own properties continues on `Object.prototype`, as in the language;
* a call that throws is an `Except.error`.
-/

namespace Rbac

/-! ## JavaScript primitives -/

/-- Truthiness of a value that is `undefined`/`null` or a string: only a
non-empty string is truthy. -/
def truthy (v : Option String) : Bool :=
  match v with
  | none => false
  | some s => s != ""

/-- The operator `a || b` on values that are `undefined` or a string. -/
def jsOr (a b : Option String) : Option String :=
  if truthy a then a else b

/-- Values that every plain object inherits from `Object.prototype`: its
built-in functions, and (under the key `__proto__`) the prototype object
itself. -/
inductive Inherited where
  | builtinFunction (name : String)
  | objectPrototype
  deriving DecidableEq, Repr

/-- The property names defined on `Object.prototype` (ECMAScript, Annex B
included), mapped to the value a read yields. `constructor` is the function
named `Object`; every other function is named after its key. -/
def objectPrototypeGet (key : String) : Option Inherited :=
  if key = "constructor" then some (.builtinFunction "Object")
  else if key = "__proto__" then some .objectPrototype
  else if key ∈ ["toString", "toLocaleString", "valueOf", "hasOwnProperty",
      "isPrototypeOf", "propertyIsEnumerable", "__defineGetter__",
      "__defineSetter__", "__lookupGetter__", "__lookupSetter__"] then
    some (.builtinFunction key)
  else none

/-- The string `ToPrimitive` produces for an inherited value (the text of
`Function.prototype.toString` for a built-in, `Object.prototype.toString`
for the prototype object). -/
def Inherited.toText : Inherited → String
  | .builtinFunction name => "function " ++ name ++ "() \x7b [native code] \x7d"
  | .objectPrototype => "[object Object]"

/-- Result of the property read `object[key]` on a plain object literal. -/
inductive Property (α : Type) where
  | own (value : α)
  | inherited (value : Inherited)
  | undefined
  deriving DecidableEq, Repr

/-- First own property stored under `key`. -/
def getOwn {α : Type} (object : List (String × α)) (key : String) : Option α :=
  match object with
  | [] => none
  | (k, v) :: rest => if k = key then some v else getOwn rest key

/-- The property read `object[key]`: own properties first, then
`Object.prototype`. An `undefined`/`null` key is the property name
`"undefined"`/`"null"`, which none of the objects below and no prototype
defines. -/
def getProperty {α : Type} (object : List (String × α)) (key : Option String) : Property α :=
  match key with
  | none => .undefined
  | some k =>
    match getOwn object k with
    | some v => .own v
    | none =>
      match objectPrototypeGet k with
      | some i => .inherited i
      | none => .undefined

/-- The relation `a < b` on strings: lexicographic on the character codes, a
proper prefix being smaller. (All texts compared below are ASCII, where
code units and code points coincide.) -/
def stringLt : List Char → List Char → Bool
  | _, [] => false
  | [], _ :: _ => true
  | a :: as, b :: bs =>
    if a.toNat < b.toNat then true
    else if b.toNat < a.toNat then false
    else stringLt as bs

/-- The method `route.startsWith(pattern)` on strings. -/
def startsWith (route pattern : String) : Bool :=
  pattern.data.isPrefixOf route.data

/-! ### Enumeration order of `Object.entries` -/

/-- The value of a decimal digit. -/
def digitValue (c : Char) : Option Nat :=
  if c = '0' then some 0 else if c = '1' then some 1 else if c = '2' then some 2
  else if c = '3' then some 3 else if c = '4' then some 4 else if c = '5' then some 5
  else if c = '6' then some 6 else if c = '7' then some 7 else if c = '8' then some 8
  else if c = '9' then some 9 else none

/-- The number a list of decimal digits denotes, read after the digits that
gave `acc`; `none` when a character is no digit. -/
def digitsValue (acc : Nat) : List Char → Option Nat
  | [] => some acc
  | c :: rest =>
    match digitValue c with
    | none => none
    | some d => digitsValue (10 * acc + d) rest

/-- The array index a property key denotes, if any: the key is the canonical
decimal text (`"0"`, or digits without a leading zero) of an integer below
`2^32 - 1`. -/
def arrayIndex (key : String) : Option Nat :=
  match key.data with
  | [] => none
  | c :: rest =>
    if c = '0' ∧ rest ≠ [] then none
    else
      match digitsValue 0 (c :: rest) with
      | none => none
      | some n => if n < 4294967295 then some n else none

/-- The assignment of `value` to the property `key` of an object under
construction: an existing key keeps its place and takes the new value, a new
key goes last. -/
def defineProperty {α : Type} (object : List (String × α)) (key : String) (value : α) :
    List (String × α) :=
  match object with
  | [] => [(key, value)]
  | (k, v) :: rest =>
    if k = key then (k, value) :: rest else (k, v) :: defineProperty rest key value

/-- The own properties, in creation order, of the object literal whose
property definitions `declared` lists in order. A definition under the key
`__proto__` sets the prototype of the object and creates no own property. -/
def ownProperties {α : Type} (declared : List (String × α)) : List (String × α) :=
  declared.foldl
    (fun object e => if e.1 = "__proto__" then object else defineProperty object e.1 e.2) []

/-- Insertion of an entry with array index `n` into entries sorted by
ascending index. -/
def insertIndexed {α : Type} (n : Nat) (e : String × α) :
    List (Nat × (String × α)) → List (Nat × (String × α))
  | [] => [(n, e)]
  | (m, f) :: rest =>
    if n ≤ m then (n, e) :: (m, f) :: rest else (m, f) :: insertIndexed n e rest

/-- The entries whose key is an array index, in ascending order of index. -/
def indexedEntries {α : Type} : List (String × α) → List (Nat × (String × α))
  | [] => []
  | e :: rest =>
    match arrayIndex e.1 with
    | some n => insertIndexed n e (indexedEntries rest)
    | none => indexedEntries rest

/-- The call `Object.entries(object)` on the object literal whose property
definitions `declared` lists: the keys that are array indices come first, in
ascending numeric order, then the other keys in creation order. -/
def objectEntries {α : Type} (declared : List (String × α)) : List (String × α) :=
  (indexedEntries (ownProperties declared)).map Prod.snd ++
    (ownProperties declared).filter (fun e => (arrayIndex e.1).isNone)

/-! ## `src/config/permissions.js` -/

namespace PERMISSIONS

def VIEW_USERS : String := "view_users"
def CREATE_USERS : String := "create_users"
def EDIT_USER : String := "edit_user"
def DELETE_USER : String := "delete_user"
def CHANGE_USER_ROLE : String := "change_user_role"
def VIEW_USER_DETAILS : String := "view_user_details"
def CREATE_FORUM : String := "create_forum"
def EDIT_OWN_FORUM : String := "edit_own_forum"
def EDIT_ANY_FORUM : String := "edit_any_forum"
def DELETE_OWN_FORUM : String := "delete_own_forum"
def DELETE_ANY_FORUM : String := "delete_any_forum"
def LOCK_FORUM : String := "lock_forum"
def CREATE_THREAD : String := "create_thread"
def EDIT_OWN_THREAD : String := "edit_own_thread"
def EDIT_ANY_THREAD : String := "edit_any_thread"
def DELETE_OWN_THREAD : String := "delete_own_thread"
def DELETE_ANY_THREAD : String := "delete_any_thread"
def LOCK_THREAD : String := "lock_thread"
def CREATE_REPLY : String := "create_reply"
def EDIT_OWN_REPLY : String := "edit_own_reply"
def EDIT_ANY_REPLY : String := "edit_any_reply"
def DELETE_OWN_REPLY : String := "delete_own_reply"
def DELETE_ANY_REPLY : String := "delete_any_reply"
def MODERATE_CONTENT : String := "moderate_content"
def VIEW_REPORTS : String := "view_reports"
def BAN_USER : String := "ban_user"
def VIEW_LOGS : String := "view_logs"
def VIEW_ANALYTICS : String := "view_analytics"
def MANAGE_SYSTEM : String := "manage_system"

end PERMISSIONS

/-! ## `src/config/roles.js` -/

namespace ROLES

def ADMIN : String := "admin"
def MODERATOR : String := "moderator"
def USER : String := "user"

end ROLES

/-- Role hierarchy: the own properties of the object literal. -/
def ROLE_HIERARCHY : List (String × Int) :=
  [(ROLES.USER, 0), (ROLES.MODERATOR, 1), (ROLES.ADMIN, 2)]

def USER_PERMISSIONS : List String :=
  [PERMISSIONS.VIEW_USERS, PERMISSIONS.VIEW_USER_DETAILS,
   PERMISSIONS.CREATE_FORUM, PERMISSIONS.EDIT_OWN_FORUM, PERMISSIONS.DELETE_OWN_FORUM,
   PERMISSIONS.CREATE_THREAD, PERMISSIONS.EDIT_OWN_THREAD, PERMISSIONS.DELETE_OWN_THREAD,
   PERMISSIONS.CREATE_REPLY, PERMISSIONS.EDIT_OWN_REPLY, PERMISSIONS.DELETE_OWN_REPLY]

def MODERATOR_PERMISSIONS : List String :=
  USER_PERMISSIONS ++
  [PERMISSIONS.EDIT_ANY_FORUM, PERMISSIONS.DELETE_ANY_FORUM,
   PERMISSIONS.EDIT_ANY_THREAD, PERMISSIONS.DELETE_ANY_THREAD,
   PERMISSIONS.EDIT_ANY_REPLY, PERMISSIONS.DELETE_ANY_REPLY,
   PERMISSIONS.LOCK_FORUM, PERMISSIONS.LOCK_THREAD,
   PERMISSIONS.MODERATE_CONTENT, PERMISSIONS.VIEW_REPORTS]

def ADMIN_PERMISSIONS : List String :=
  MODERATOR_PERMISSIONS ++
  [PERMISSIONS.CREATE_USERS, PERMISSIONS.EDIT_USER, PERMISSIONS.DELETE_USER,
   PERMISSIONS.CHANGE_USER_ROLE, PERMISSIONS.BAN_USER,
   PERMISSIONS.VIEW_LOGS, PERMISSIONS.VIEW_ANALYTICS, PERMISSIONS.MANAGE_SYSTEM]

/-- Role to permission list: the own properties of the object literal. -/
def ROLE_PERMISSIONS : List (String × List String) :=
  [(ROLES.USER, USER_PERMISSIONS),
   (ROLES.MODERATOR, MODERATOR_PERMISSIONS),
   (ROLES.ADMIN, ADMIN_PERMISSIONS)]

/-- What `getRolePermissions` can return: an array of permission strings, or
a value inherited from `Object.prototype`. -/
inductive PermissionsValue where
  | array (items : List String)
  | inherited (value : Inherited)
  deriving DecidableEq, Repr

/-- The function `getRolePermissions(role)`: `ROLE_PERMISSIONS[role] || []`.
Arrays, functions and objects are all truthy, so `[]` is produced only when
the read yields `undefined`. -/
def getRolePermissions (role : Option String) : PermissionsValue :=
  match getProperty ROLE_PERMISSIONS role with
  | .own items => .array items
  | .inherited v => .inherited v
  | .undefined => .array []

/-- The function `isValidRole(role)`: `Object.values(ROLES).includes(role)`. -/
def isValidRole (role : Option String) : Bool :=
  match role with
  | none => false
  | some r => [ROLES.ADMIN, ROLES.MODERATOR, ROLES.USER].contains r

/-- What `getRoleLevel` can return: a number, or a value inherited from
`Object.prototype`. -/
inductive LevelValue where
  | number (n : Int)
  | inherited (value : Inherited)
  deriving DecidableEq, Repr

/-- The function `getRoleLevel(role)`: `ROLE_HIERARCHY[role] ?? -1`. Only
`undefined` is nullish here; the level `0` and inherited values are kept. -/
def getRoleLevel (role : Option String) : LevelValue :=
  match getProperty ROLE_HIERARCHY role with
  | .own n => .number n
  | .inherited v => .inherited v
  | .undefined => .number (-1)

/-- Strict equality `level === n` against a number: a function or an object
is never strictly equal to a number. -/
def LevelValue.strictEq (level : LevelValue) (n : Int) : Bool :=
  match level with
  | .number m => m == n
  | .inherited _ => false

/-- The comparison `a >= b`. Both operands go through `ToPrimitive`: two
numbers compare numerically; a number against the text of a function or
object compares against `NaN` and is false; two texts compare as strings,
`a >= b` being the negation of `a < b`. -/
def LevelValue.ge (a b : LevelValue) : Bool :=
  match a, b with
  | .number m, .number n => decide (n ≤ m)
  | .number _, .inherited _ => false
  | .inherited _, .number _ => false
  | .inherited x, .inherited y => !stringLt x.toText.data y.toText.data

/-! ## `src/lib/rbac.js` -/

/-- The identity passed to the evaluator: its `role` and the two id fields
the evaluator reads. An id field holds the text its `toString()` yields, or
`none` when the field is `undefined`/`null`. -/
structure User where
  role : Option String
  _id : Option String
  id : Option String
  deriving DecidableEq, Repr

/-- The exception a call can raise: calling `includes` on a value that has
no such method. -/
inductive JSError where
  | typeError
  deriving DecidableEq, Repr

/-- Equality of two call results is decidable. -/
instance : DecidableEq (Except JSError Bool) := fun a b =>
  match a, b with
  | .ok x, .ok y =>
    if h : x = y then isTrue (by rw [h]) else isFalse (fun h2 => h (Except.ok.inj h2))
  | .error x, .error y =>
    if h : x = y then isTrue (by rw [h]) else isFalse (fun h2 => h (Except.error.inj h2))
  | .ok _, .error _ => isFalse (fun h => Except.noConfusion h)
  | .error _, .ok _ => isFalse (fun h => Except.noConfusion h)

/-- The function `hasPermission(user, permission)`. When `getRolePermissions`
hands back an inherited function or object, `userPermissions.includes` is
`undefined` and the call throws. -/
def hasPermission (user : Option User) (permission : String) : Except JSError Bool :=
  match user with
  | none => .ok false
  | some u =>
    if !truthy u.role then .ok false
    else
      match getRolePermissions u.role with
      | .array items => .ok (items.contains permission)
      | .inherited _ => .error .typeError

/-- The function `hasRole(user, role)`: strict equality of the two roles. -/
def hasRole (user : Option User) (role : Option String) : Bool :=
  match user with
  | none => false
  | some u =>
    if !truthy u.role then false
    else decide (u.role = role)

/-- The `role` field of a route requirement, also the second argument of
`hasAnyRole`: a single string or an array of strings. -/
inductive RoleRequirement where
  | single (role : String)
  | anyOf (roles : List String)
  deriving DecidableEq, Repr

/-- The function `hasAnyRole(user, roles)`; `Array.isArray(roles)` holds for
the array shape only. -/
def hasAnyRole (user : Option User) (roles : Option RoleRequirement) : Bool :=
  match user with
  | none => false
  | some u =>
    if !truthy u.role then false
    else
      match roles, u.role with
      | some (.anyOf rs), some r => rs.contains r
      | _, _ => false

/-- The function `hasMinimumRole(user, minimumRole)`. -/
def hasMinimumRole (user : Option User) (minimumRole : Option String) : Bool :=
  match user with
  | none => false
  | some u =>
    if !truthy u.role then false
    else
      let userLevel := getRoleLevel u.role
      let requiredLevel := getRoleLevel minimumRole
      if userLevel.strictEq (-1) || requiredLevel.strictEq (-1) then false
      else userLevel.ge requiredLevel

/-- The requirements object of a route table entry. -/
structure Requirements where
  role : Option RoleRequirement
  permission : Option String
  minimumRole : Option String
  deriving DecidableEq, Repr

/-- Truthiness of `requirements.role`: an array is always truthy, a string
when it is not empty. -/
def RoleRequirement.truthy (r : Option RoleRequirement) : Bool :=
  match r with
  | none => false
  | some (.single s) => s != ""
  | some (.anyOf _) => true

/-- Body of the loop of `canAccessRoute` for an entry whose pattern matched:
`some result` when one of the three `if`s returns, `none` when control falls
out of all of them and the loop goes on. -/
def checkRequirements (user : Option User) (requirements : Requirements) :
    Option (Except JSError Bool) :=
  if RoleRequirement.truthy requirements.role then
    match requirements.role with
    | some (.anyOf rs) => some (.ok (hasAnyRole user (some (.anyOf rs))))
    | some (.single r) => some (.ok (hasRole user (some r)))
    | none => none
  else if truthy requirements.permission then
    match requirements.permission with
    | some p => some (hasPermission user p)
    | none => none
  else if truthy requirements.minimumRole then
    some (.ok (hasMinimumRole user requirements.minimumRole))
  else none

/-- The `for ... of Object.entries(routeConfig)` loop of `canAccessRoute`,
followed by the final `return true`. -/
def scanRoutes (user : Option User) (route : String) :
    List (String × Requirements) → Except JSError Bool
  | [] => .ok true
  | (pattern, requirements) :: rest =>
    if startsWith route pattern then
      match checkRequirements user requirements with
      | some result => result
      | none => scanRoutes user route rest
    else scanRoutes user route rest

/-- The function `canAccessRoute(user, route, routeConfig)`. -/
def canAccessRoute (user : Option User) (route : String)
    (routeConfig : Option (List (String × Requirements))) : Except JSError Bool :=
  match routeConfig with
  | none => .ok true
  | some entries =>
    if route = "" then .ok true
    else scanRoutes user route entries

/-- The value stored in an owner field of a resource: a bare id (a string or
an object id, given by the text of its `toString()`), or a nested plain
object with its `_id` (text of `_id.toString()`, if any). -/
inductive OwnerValue where
  | bare (text : String)
  | nested (_id : Option String)
  deriving DecidableEq, Repr

/-- The expression `value?._id?.toString()` on the result of
`resource[ownerField]`. A bare id and an inherited function or object carry
no `_id` of their own. -/
def ownerNestedId (value : Property OwnerValue) : Option String :=
  match value with
  | .own (.nested i) => i
  | .own (.bare _) => none
  | .inherited _ => none
  | .undefined => none

/-- The expression `value?.toString()` on the result of
`resource[ownerField]`. -/
def ownerToString (value : Property OwnerValue) : Option String :=
  match value with
  | .own (.nested _) => some "[object Object]"
  | .own (.bare text) => some text
  | .inherited i => some i.toText
  | .undefined => none

/-- The function `ownsResource(user, resource, ownerField = 'createdBy')`.
The resource is a plain object given by its own properties; an `undefined`
third argument takes the default. The final `===` compares two values that
are each `undefined` or a string. -/
def ownsResource (user : Option User) (resource : Option (List (String × OwnerValue)))
    (ownerField : Option String) : Bool :=
  match user, resource with
  | some u, some r =>
    let field := ownerField.getD "createdBy"
    let userId := jsOr u._id u.id
    let resourceOwnerId :=
      jsOr (ownerNestedId (getProperty r (some field))) (ownerToString (getProperty r (some field)))
    decide (userId = resourceOwnerId)
  | _, _ => false

/-- The function `canEditResource(user, resource, editOwnPermission,
editAnyPermission, ownerField = 'createdBy')`. -/
def canEditResource (user : Option User) (resource : Option (List (String × OwnerValue)))
    (editOwnPermission editAnyPermission : String) (ownerField : Option String) :
    Except JSError Bool :=
  match user with
  | none => .ok false
  | some u =>
    match hasPermission (some u) editAnyPermission with
    | .error e => .error e
    | .ok true => .ok true
    | .ok false =>
      if ownsResource (some u) resource ownerField then
        match hasPermission (some u) editOwnPermission with
        | .error e => .error e
        | .ok true => .ok true
        | .ok false => .ok false
      else .ok false

/-- The function `canDeleteResource(user, resource, deleteOwnPermission,
deleteAnyPermission, ownerField = 'createdBy')`. -/
def canDeleteResource (user : Option User) (resource : Option (List (String × OwnerValue)))
    (deleteOwnPermission deleteAnyPermission : String) (ownerField : Option String) :
    Except JSError Bool :=
  match user with
  | none => .ok false
  | some u =>
    match hasPermission (some u) deleteAnyPermission with
    | .error e => .error e
    | .ok true => .ok true
    | .ok false =>
      if ownsResource (some u) resource ownerField then
        match hasPermission (some u) deleteOwnPermission with
        | .error e => .error e
        | .ok true => .ok true
        | .ok false => .ok false
      else .ok false

/-! ## `src/config/route-config.js` -/

/-- Route configuration: the own properties of the object literal, in
declaration order. -/
def ROUTE_CONFIG : List (String × Requirements) :=
  [("/admin", ⟨some (.single ROLES.ADMIN), none, none⟩),
   ("/moderator", ⟨some (.anyOf [ROLES.ADMIN, ROLES.MODERATOR]), none, none⟩),
   ("/api/users", ⟨none, none, some ROLES.MODERATOR⟩),
   ("/api/logs", ⟨some (.single ROLES.ADMIN), none, none⟩),
   ("/api/forums", ⟨none, none, some ROLES.USER⟩),
   ("/api/threads", ⟨none, none, some ROLES.USER⟩)]

/-- Public routes that need no authentication. -/
def PUBLIC_ROUTES : List String :=
  ["/login", "/register", "/forgot-password",
   "/api/auth/login", "/api/auth/register", "/api/auth/refresh"]

/-- The function `isPublicRoute(pathname)`:
`PUBLIC_ROUTES.some(route => pathname.startsWith(route))`. -/
def isPublicRoute (pathname : String) : Bool :=
  PUBLIC_ROUTES.any (fun route => startsWith pathname route)

/-! ## `tests/unit/lib/rbac.test.js` -/

namespace RbacTest

/-- The table `routeConfig` of the `canAccessRoute()` test suite. -/
def routeConfig : List (String × Requirements) :=
  [("/admin", ⟨some (.single ROLES.ADMIN), none, none⟩),
   ("/moderator", ⟨some (.anyOf [ROLES.ADMIN, ROLES.MODERATOR]), none, none⟩),
   ("/api/users", ⟨none, none, some ROLES.MODERATOR⟩)]

end RbacTest

/-! ## `src/app/api/forums/[id]/lock/route.js` -/

namespace ForumLock

/-- The request, as far as the handler reads it before the database: its
cookie, and the outcome of `const { lock } = await req.json()` (`none` when
the body is not JSON, or is `null`, and the statement throws; otherwise the
field `lock`). -/
structure Request where
  cookie : Option String
  body : Option (Option Bool)
  deriving DecidableEq, Repr

/-- The identifiers the handler reads up to its permission check without
declaring them: `getUserFromCookie` (line 5) and `NextResponse` (lines 7 and
15). `none`, resp. `false`, is an identifier that has no binding; a bound
`getUserFromCookie` yields an identity or `null`. -/
structure Scope where
  getUserFromCookie : Option (Request → Option User)
  NextResponse : Bool

/-- The scope of the file as it stands: it has no `import` and no declaration
besides `PATCH`, so neither identifier is bound. -/
def moduleScope : Scope := ⟨none, false⟩

/-- How a run of the handler ends, up to its permission check. -/
inductive Outcome where
  | bodyError
  | referenceError (identifier : String)
  | typeError
  | unauthorized401
  | forbidden403
  | passes
  deriving DecidableEq, Repr

/-- The handler `PATCH` up to the database read `Forum.findById` (lines 1 to
19): the body is read, then the identity, then the `LOCK_FORUM` check. The
read of an unbound identifier throws a `ReferenceError`; `hasPermission` may
throw a `TypeError`; `passes` is a run that gets past the check. -/
def PATCH (scope : Scope) (req : Request) : Outcome :=
  match req.body with
  | none => .bodyError
  | some _ =>
    match scope.getUserFromCookie with
    | none => .referenceError "getUserFromCookie"
    | some getUserFromCookie =>
      match getUserFromCookie req with
      | none =>
        if scope.NextResponse then .unauthorized401 else .referenceError "NextResponse"
      | some user =>
        match hasPermission (some user) PERMISSIONS.LOCK_FORUM with
        | .error _ => .typeError
        | .ok false =>
          if scope.NextResponse then .forbidden403 else .referenceError "NextResponse"
        | .ok true => .passes

end ForumLock

/-! ## `src/lib/auth-middleware.js` and `middleware.js` -/

namespace Middleware

/-- The verified token's payload, used as the identity: the fields of `User`
and the `username`. -/
structure Payload extends User where
  username : Option String
  deriving DecidableEq, Repr

/-- What the gate reads of a request: the path of its URL and the value of
the `accessToken` cookie, if any. -/
structure Request where
  pathname : String
  accessToken : Option String
  deriving DecidableEq, Repr

/-- The object `authorize` returns; `isPublic` is its field `public`. -/
structure AuthResult where
  authorized : Bool
  isPublic : Bool
  reason : Option String
  user : Option Payload
  deriving DecidableEq, Repr

/-- The function `authorize(request)`. The library call `jwtVerify` is a
parameter: it yields the payload, or `none` when it throws, which the
`catch` turns into the result with reason `Invalid token`. -/
def authorize (jwtVerify : String → Option Payload) (request : Request) : AuthResult :=
  if isPublicRoute request.pathname then
    ⟨true, true, none, none⟩
  else
    match request.accessToken with
    | none => ⟨false, false, some "Authentication required", none⟩
    | some token =>
      if !truthy (some token) then ⟨false, false, some "Authentication required", none⟩
      else
        match jwtVerify token with
        | some payload => ⟨true, false, none, some payload⟩
        | none => ⟨false, false, some "Invalid token", none⟩

/-- What the gate answers: `NextResponse.next()` with the headers set on it
(name and the value passed to `headers.set`), a JSON response with its status
and `error` text, or a redirect to a path with its search parameters. -/
inductive Response where
  | next (headers : List (String × Option String))
  | json (status : Nat) (error : String)
  | redirect (path : String) (searchParams : List (String × String))
  deriving DecidableEq, Repr

/-- The `catch` block of `middleware`. -/
def onError (pathname : String) : Response :=
  if startsWith pathname "/api/" then .json 500 "Internal server error"
  else .redirect "/login" []

/-- The function `middleware(request)`. A throw inside the `try` (from
`canAccessRoute`, or from `user._id.toString()` when `_id` is `undefined`)
ends in the `catch` block. -/
def middleware (jwtVerify : String → Option Payload) (request : Request) : Response :=
  let authResult := authorize jwtVerify request
  let pathname := request.pathname
  if authResult.isPublic then .next []
  else if !authResult.authorized then
    if startsWith pathname "/api/" then
      .json (if authResult.reason = some "Authentication required" then 401 else 403)
        "Access denied"
    else .redirect "/login" [("redirect", pathname)]
  else
    match canAccessRoute (authResult.user.map Payload.toUser) pathname (some ROUTE_CONFIG) with
    | .error _ => onError pathname
    | .ok false =>
      if startsWith pathname "/api/" then .json 403 "Forbidden"
      else .redirect "/forums" []
    | .ok true =>
      match authResult.user with
      | none => onError pathname
      | some user =>
        match user._id with
        | none => onError pathname
        | some id =>
          .next [("x-user-id", some id), ("x-user-role", user.role),
            ("x-user-username", user.username)]

end Middleware

/-! ## `src/app/api/users/[id]/role/route.js` -/

namespace RoleRoute

/-- A document of the `User` collection, as far as the handler reads it. -/
structure StoredUser where
  _id : String
  username : String
  role : Option String
  deriving DecidableEq, Repr

/-- The `details` the handler writes to the security log, with the
`username` of the entry. -/
structure AuditEntry where
  eventType : String
  username : Option String
  targetUserId : String
  targetUsername : String
  oldRole : Option String
  newRole : String
  deriving DecidableEq, Repr

/-- The two collections the handler touches. -/
structure Database where
  users : List StoredUser
  securityLogs : List AuditEntry
  deriving DecidableEq, Repr

/-- The query `User.findById(id)`: the stored document with that `_id`, or
`null`. -/
def findById (users : List StoredUser) (id : String) : Option StoredUser :=
  match users with
  | [] => none
  | u :: rest => if u._id = id then some u else findById rest id

/-- The effect on the collection of `User.findByIdAndUpdate(id, {role})`:
the document with that `_id` gets the new role. -/
def findByIdAndUpdate (users : List StoredUser) (id : String) (newRole : String) :
    List StoredUser :=
  match users with
  | [] => []
  | u :: rest =>
    if u._id = id then { u with role := some newRole } :: rest
    else u :: findByIdAndUpdate rest id newRole

/-- What the handler holds once the body is read: the route parameter `id`,
the body field `newRole`, and the headers `x-user-id` and `x-user-username`. -/
structure Parsed where
  id : String
  newRole : Option String
  actingUserId : Option String
  actingUsername : Option String
  deriving DecidableEq, Repr

/-- The handler from the reading of the headers on (the checks, the update
and the log entry): the status of the response and the database afterwards.
A throw (from `hasPermission`) ends in the `catch` block, status 500. -/
def checks (db : Database) (req : Parsed) : Nat × Database :=
  match req.actingUserId with
  | none => (401, db)
  | some actingUserId =>
    if !truthy (some actingUserId) then (401, db)
    else
      match findById db.users actingUserId with
      | none => (401, db)
      | some actingUser =>
        match hasPermission (some ⟨actingUser.role, some actingUser._id, none⟩)
            PERMISSIONS.CHANGE_USER_ROLE with
        | .error _ => (500, db)
        | .ok false => (403, db)
        | .ok true =>
          match req.newRole with
          | none => (400, db)
          | some newRole =>
            if List.contains ["user", "moderator", "admin"] newRole = false then (400, db)
            else
              match findById db.users req.id with
              | none => (404, db)
              | some targetUser =>
                if actingUser._id = targetUser._id then (400, db)
                else
                  (200,
                    Database.mk (findByIdAndUpdate db.users req.id newRole)
                      (db.securityLogs ++
                        [AuditEntry.mk "ROLE_UPDATE" req.actingUsername targetUser._id
                          targetUser.username targetUser.role newRole]))

/-- What the handler receives: the outcome of `const { id } = await params`
(`none` when the statement throws; otherwise the route parameter `id`), the
outcome of `const { newRole } = await req.json()` (`none` when the body is
not JSON, or is `null`, and the statement throws; otherwise the field
`newRole`), and the headers `x-user-id` and `x-user-username`. -/
structure Request where
  params : Option String
  body : Option (Option String)
  actingUserId : Option String
  actingUsername : Option String
  deriving DecidableEq, Repr

/-- The handler `PATCH`: the status of its response and the database
afterwards. Inside the `try` it first awaits `connectToDatabase()`
(`connected` tells whether that call resolves or throws), then reads the
route parameter and the body; a throw of any of the three ends in the `catch`
block, status 500, before any check. -/
def PATCH (connected : Bool) (db : Database) (req : Request) : Nat × Database :=
  if !connected then (500, db)
  else
    match req.params with
    | none => (500, db)
    | some id =>
      match req.body with
      | none => (500, db)
      | some newRole => checks db ⟨id, newRole, req.actingUserId, req.actingUsername⟩

end RoleRoute

/-! ## Shapes of a route requirement, in the words of the specification -/

/-- The requirement carries exactly one of the shapes `role` (a non-empty
string or an array), `permission`, `minimumRole` (non-empty strings). -/
def Requirements.exactlyOneShape (requirements : Requirements) : Bool :=
  match requirements.role, requirements.permission, requirements.minimumRole with
  | some (.single r), none, none => r != ""
  | some (.anyOf _), none, none => true
  | none, some p, none => p != ""
  | none, none, some m => m != ""
  | _, _, _ => false

/-- The roles a requirement names, in `role` (single or array) and in
`minimumRole`. -/
def Requirements.namedRoles (requirements : Requirements) : List String :=
  (match requirements.role with
    | some (.single r) => [r]
    | some (.anyOf rs) => rs
    | none => []) ++
  (match requirements.minimumRole with
    | some m => [m]
    | none => [])

/-! ## `src/hooks/usePermission.js` and `src/components/Navigation.jsx` -/

namespace UsePermission

/-- The hook's `can(permission)`; `user` is the session user. -/
def can (user : Option User) (permission : String) : Except JSError Bool :=
  match user with
  | none => .ok false
  | some u =>
    if !truthy u.role then .ok false
    else
      match getRolePermissions u.role with
      | .array items => .ok (items.contains permission)
      | .inherited _ => .error .typeError

/-- The hook's `hasRole(role)`. -/
def hasRole (user : Option User) (role : Option String) : Bool :=
  match user with
  | none => false
  | some u =>
    if !truthy u.role then false
    else decide (u.role = role)

/-- The hook's `hasAnyRole(roles)`. -/
def hasAnyRole (user : Option User) (roles : Option RoleRequirement) : Bool :=
  match user with
  | none => false
  | some u =>
    if !truthy u.role then false
    else
      match roles, u.role with
      | some (.anyOf rs), some r => rs.contains r
      | _, _ => false

/-- The hook's `hasMinimumRole(minimumRole)`. -/
def hasMinimumRole (user : Option User) (minimumRole : Option String) : Bool :=
  match user with
  | none => false
  | some u =>
    if !truthy u.role then false
    else
      let userLevel := getRoleLevel u.role
      let requiredLevel := getRoleLevel minimumRole
      if userLevel.strictEq (-1) || requiredLevel.strictEq (-1) then false
      else userLevel.ge requiredLevel

/-- The hook's `ownsResource(resource, ownerField = 'createdBy')`: the user's
id is `user.id?.toString()` alone. -/
def ownsResource (user : Option User) (resource : Option (List (String × OwnerValue)))
    (ownerField : Option String) : Bool :=
  match user, resource with
  | some u, some r =>
    let field := ownerField.getD "createdBy"
    let userId := u.id
    let resourceOwnerId :=
      jsOr (ownerNestedId (getProperty r (some field))) (ownerToString (getProperty r (some field)))
    decide (userId = resourceOwnerId)
  | _, _ => false

end UsePermission

namespace Navigation

/-- The condition under which `Navigation` renders the Admin button:
`hasRole(ROLES.ADMIN)` of the hook. -/
def showsAdminLink (user : Option User) : Bool :=
  UsePermission.hasRole user (some ROLES.ADMIN)

/-- The condition under which `Navigation` renders the Moderator button:
`hasMinimumRole(ROLES.MODERATOR)` of the hook. -/
def showsModeratorLink (user : Option User) : Bool :=
  UsePermission.hasMinimumRole user (some ROLES.MODERATOR)

end Navigation

/-! ## Further notions in the words of the specification -/

/-- The values of the object `PERMISSIONS`, in declaration order: the
permission catalog. -/
def PERMISSIONS.values : List String :=
  [PERMISSIONS.VIEW_USERS, PERMISSIONS.CREATE_USERS, PERMISSIONS.EDIT_USER,
   PERMISSIONS.DELETE_USER, PERMISSIONS.CHANGE_USER_ROLE, PERMISSIONS.VIEW_USER_DETAILS,
   PERMISSIONS.CREATE_FORUM, PERMISSIONS.EDIT_OWN_FORUM, PERMISSIONS.EDIT_ANY_FORUM,
   PERMISSIONS.DELETE_OWN_FORUM, PERMISSIONS.DELETE_ANY_FORUM, PERMISSIONS.LOCK_FORUM,
   PERMISSIONS.CREATE_THREAD, PERMISSIONS.EDIT_OWN_THREAD, PERMISSIONS.EDIT_ANY_THREAD,
   PERMISSIONS.DELETE_OWN_THREAD, PERMISSIONS.DELETE_ANY_THREAD, PERMISSIONS.LOCK_THREAD,
   PERMISSIONS.CREATE_REPLY, PERMISSIONS.EDIT_OWN_REPLY, PERMISSIONS.EDIT_ANY_REPLY,
   PERMISSIONS.DELETE_OWN_REPLY, PERMISSIONS.DELETE_ANY_REPLY,
   PERMISSIONS.MODERATE_CONTENT, PERMISSIONS.VIEW_REPORTS, PERMISSIONS.BAN_USER,
   PERMISSIONS.VIEW_LOGS, PERMISSIONS.VIEW_ANALYTICS, PERMISSIONS.MANAGE_SYSTEM]

/-- The requirement has no truthy field: `role`, `permission` and
`minimumRole` are all absent or empty. -/
def Requirements.isEmpty (requirements : Requirements) : Bool :=
  !RoleRequirement.truthy requirements.role && !truthy requirements.permission &&
    !truthy requirements.minimumRole

/-! ## Auxiliary facts -/

theorem defineProperty_new {α : Type} (object : List (String × α)) (key : String) (value : α)
    (h : ∀ e ∈ object, e.1 ≠ key) : defineProperty object key value = object ++ [(key, value)] := by
  induction object with
  | nil => rfl
  | cons e rest ih =>
    obtain ⟨k, v⟩ := e
    have hk : k ≠ key := h (k, v) (List.mem_cons_self _ _)
    simp only [defineProperty, if_neg hk, List.cons_append]
    rw [ih (fun e he => h e (List.mem_cons_of_mem _ he))]

theorem foldl_defineProperty {α : Type} (declared object : List (String × α))
    (h : ((object ++ declared).map Prod.fst).Nodup)
    (hproto : ∀ e ∈ declared, e.1 ≠ "__proto__") :
    declared.foldl
      (fun object e => if e.1 = "__proto__" then object else defineProperty object e.1 e.2)
      object = object ++ declared := by
  induction declared generalizing object with
  | nil => simp
  | cons e rest ih =>
    have hnew : ∀ f ∈ object, f.1 ≠ e.1 := by
      intro f hf heq
      rw [List.map_append, List.map_cons] at h
      have := (List.nodup_append.1 h).2.2
      exact this (List.mem_map_of_mem _ hf) (by rw [heq]; exact List.mem_cons_self _ _)
    simp only [List.foldl_cons, if_neg (hproto e (List.mem_cons_self _ _))]
    rw [defineProperty_new object e.1 e.2 hnew,
      ih _ (by simpa using h) (fun f hf => hproto f (List.mem_cons_of_mem _ hf))]
    simp

theorem ownProperties_of_nodup {α : Type} (declared : List (String × α))
    (h : (declared.map Prod.fst).Nodup) (hproto : ∀ e ∈ declared, e.1 ≠ "__proto__") :
    ownProperties declared = declared := by
  simpa [ownProperties] using foldl_defineProperty declared [] (by simpa using h) hproto

theorem indexedEntries_of_no_index {α : Type} (object : List (String × α))
    (h : ∀ e ∈ object, arrayIndex e.1 = none) : indexedEntries object = [] := by
  induction object with
  | nil => rfl
  | cons e rest ih =>
    simp only [indexedEntries, h e (List.mem_cons_self _ _)]
    exact ih (fun f hf => h f (List.mem_cons_of_mem _ hf))

/-- On a table whose keys are distinct, none an array index and none
`__proto__`, `Object.entries` enumerates in declaration order. -/
theorem objectEntries_declaration_order {α : Type} (declared : List (String × α))
    (hkeys : (declared.map Prod.fst).Nodup)
    (hindex : ∀ e ∈ declared, arrayIndex e.1 = none)
    (hproto : ∀ e ∈ declared, e.1 ≠ "__proto__") :
    objectEntries declared = declared := by
  simp only [objectEntries, ownProperties_of_nodup declared hkeys hproto,
    indexedEntries_of_no_index declared hindex, List.map_nil, List.nil_append]
  rw [List.filter_eq_self]
  intro e he
  simp [hindex e he]

/-- The route table of the application has no array-index key and no repeated
key: `Object.entries` enumerates it as declared. -/
theorem ROUTE_CONFIG_objectEntries : objectEntries ROUTE_CONFIG = ROUTE_CONFIG := by
  decide

/-- The route table of the unit tests is enumerated as declared too. -/
theorem routeConfig_objectEntries :
    objectEntries RbacTest.routeConfig = RbacTest.routeConfig := by
  decide

theorem truthy_eq_true_iff (v : Option String) :
    truthy v = true ↔ ∃ s, v = some s ∧ s ≠ "" := by
  cases v with
  | none => simp [truthy]
  | some s => simp [truthy]

theorem scanRoutes_no_match (user : Option User) (route : String)
    (entries : List (String × Requirements))
    (h : ∀ e ∈ entries, startsWith route e.1 = false) :
    scanRoutes user route entries = .ok true := by
  induction entries with
  | nil => rfl
  | cons e rest ih =>
    obtain ⟨pattern, requirements⟩ := e
    have h1 : startsWith route pattern = false := h (pattern, requirements) (List.mem_cons_self _ _)
    have h2 : ∀ e ∈ rest, startsWith route e.1 = false :=
      fun e he => h e (List.mem_cons_of_mem _ he)
    simp [scanRoutes, h1, ih h2]

theorem scanRoutes_skip (user : Option User) (route : String)
    (pre rest : List (String × Requirements))
    (h : ∀ e ∈ pre, startsWith route e.1 = false) :
    scanRoutes user route (pre ++ rest) = scanRoutes user route rest := by
  induction pre with
  | nil => rfl
  | cons e pre ih =>
    obtain ⟨pattern, requirements⟩ := e
    have h1 : startsWith route pattern = false := h (pattern, requirements) (List.mem_cons_self _ _)
    have h2 : ∀ e ∈ pre, startsWith route e.1 = false :=
      fun e he => h e (List.mem_cons_of_mem _ he)
    simp [scanRoutes, h1, ih h2]

theorem checkRequirements_decides (user : Option User) (requirements : Requirements)
    (h : RoleRequirement.truthy requirements.role = true ∨
      truthy requirements.permission = true ∨ truthy requirements.minimumRole = true) :
    ∃ result, checkRequirements user requirements = some result := by
  obtain ⟨role, permission, minimumRole⟩ := requirements
  simp only at h
  unfold checkRequirements
  simp only
  by_cases hr : RoleRequirement.truthy role = true
  · rw [if_pos hr]
    cases role with
    | none => simp [RoleRequirement.truthy] at hr
    | some r =>
      cases r with
      | single x => exact ⟨_, rfl⟩
      | anyOf xs => exact ⟨_, rfl⟩
  · rw [if_neg hr]
    by_cases hp : truthy permission = true
    · rw [if_pos hp]
      cases permission with
      | none => simp [truthy] at hp
      | some x => exact ⟨_, rfl⟩
    · rw [if_neg hp]
      by_cases hm : truthy minimumRole = true
      · rw [if_pos hm]
        exact ⟨_, rfl⟩
      · rcases h with h | h | h
        · exact absurd h hr
        · exact absurd h hp
        · exact absurd h hm

theorem getOwn_ROLE_HIERARCHY_unknown (r : String) (hv : isValidRole (some r) = false) :
    getOwn ROLE_HIERARCHY r = none := by
  simp [isValidRole, ROLES.ADMIN, ROLES.MODERATOR, ROLES.USER] at hv
  obtain ⟨h1, h2, h3⟩ := hv
  simp [getOwn, ROLE_HIERARCHY, ROLES.ADMIN, ROLES.MODERATOR, ROLES.USER, Ne.symm h1, Ne.symm h2, Ne.symm h3]

theorem getRoleLevel_unknown (r : String) (hv : isValidRole (some r) = false)
    (hp : objectPrototypeGet r = none) : getRoleLevel (some r) = .number (-1) := by
  simp [getRoleLevel, getProperty, getOwn_ROLE_HIERARCHY_unknown r hv, hp]

theorem getOwn_ROLE_PERMISSIONS_unknown (r : String) (hv : isValidRole (some r) = false) :
    getOwn ROLE_PERMISSIONS r = none := by
  simp [isValidRole, ROLES.ADMIN, ROLES.MODERATOR, ROLES.USER] at hv
  obtain ⟨h1, h2, h3⟩ := hv
  simp [getOwn, ROLE_PERMISSIONS, ROLES.ADMIN, ROLES.MODERATOR, ROLES.USER, Ne.symm h1, Ne.symm h2, Ne.symm h3]

theorem getRolePermissions_unknown (r : String) (hv : isValidRole (some r) = false)
    (hp : objectPrototypeGet r = none) : getRolePermissions (some r) = .array [] := by
  simp [getRolePermissions, getProperty, getOwn_ROLE_PERMISSIONS_unknown r hv, hp]

theorem hasMinimumRole_iff (u : User) (minimumRole : Option String) :
    hasMinimumRole (some u) minimumRole = true ↔
      (truthy u.role = true ∧ (getRoleLevel u.role).strictEq (-1) = false ∧
        (getRoleLevel minimumRole).strictEq (-1) = false ∧
        (getRoleLevel u.role).ge (getRoleLevel minimumRole) = true) := by
  by_cases hr : truthy u.role = true
  · simp [hasMinimumRole, hr, and_assoc]
  · have hr2 : truthy u.role = false := by simpa using hr
    simp [hasMinimumRole, hr2]

theorem isValidRole_iff (role : Option String) :
    isValidRole role = true ↔
      role = some "user" ∨ role = some "moderator" ∨ role = some "admin" := by
  cases role with
  | none => simp [isValidRole]
  | some r =>
    simp [isValidRole, ROLES.ADMIN, ROLES.MODERATOR, ROLES.USER]
    constructor
    · rintro (h | h | h) <;> simp [h]
    · rintro (h | h | h) <;> simp [h]

theorem startsWith_incomparable (route p q : String)
    (hp : startsWith route p = true)
    (hpq : startsWith p q = false) (hqp : startsWith q p = false) :
    startsWith route q = false := by
  cases hq : startsWith route q with
  | false => rfl
  | true =>
    unfold startsWith at hp hq hpq hqp
    rw [List.isPrefixOf_iff_prefix] at hp hq
    rcases List.prefix_or_prefix_of_prefix hp hq with h | h
    · rw [List.isPrefixOf_iff_prefix.mpr h] at hqp
      exact absurd hqp (by simp)
    · rw [List.isPrefixOf_iff_prefix.mpr h] at hpq
      exact absurd hpq (by simp)

theorem ne_empty_of_startsWith (route p : String)
    (hp : startsWith route p = true) (hne : startsWith "" p = false) : route ≠ "" := by
  intro h
  subst h
  rw [hp] at hne
  exact absurd hne (by simp)

theorem scanRoutes_at (user : Option User) (route : String)
    (pre post : List (String × Requirements)) (pattern : String) (requirements : Requirements)
    (result : Except JSError Bool)
    (hpre : ∀ e ∈ pre, startsWith route e.1 = false)
    (hmatch : startsWith route pattern = true)
    (hres : checkRequirements user requirements = some result) :
    scanRoutes user route (pre ++ (pattern, requirements) :: post) = result := by
  rw [scanRoutes_skip user route pre _ hpre]
  simp [scanRoutes, hmatch, hres]

theorem hasPermission_valid_role (u : User) (permission : String)
    (hvalid : isValidRole u.role = true) :
    ∃ items, getRolePermissions u.role = .array items ∧
      hasPermission (some u) permission = .ok (items.contains permission) := by
  rcases (isValidRole_iff u.role).mp hvalid with h | h | h <;>
    · refine ⟨_, by rw [h]; rfl, ?_⟩
      simp [hasPermission, h, truthy, getRolePermissions, getProperty, getOwn, ROLE_PERMISSIONS,
        ROLES.USER, ROLES.MODERATOR, ROLES.ADMIN]

theorem getRolePermissions_invalid (r : String) (hv : isValidRole (some r) = false) :
    getRolePermissions (some r) = .array [] ∨ ∃ i, getRolePermissions (some r) = .inherited i := by
  cases hp : objectPrototypeGet r with
  | none => exact Or.inl (getRolePermissions_unknown r hv hp)
  | some i =>
    right
    exact ⟨i, by simp [getRolePermissions, getProperty, getOwn_ROLE_PERMISSIONS_unknown r hv, hp]⟩

theorem hasPermission_invalid_role (u : User) (permission : String)
    (hv : isValidRole u.role = false) :
    hasPermission (some u) permission ≠ .ok true := by
  cases hr : u.role with
  | none => simp [hasPermission, hr, truthy]
  | some r =>
    rw [hr] at hv
    by_cases ht : truthy (some r) = true
    · rcases getRolePermissions_invalid r hv with h | ⟨i, h⟩
      · simp [hasPermission, hr, ht, h]
      · simp [hasPermission, hr, ht, h]
    · have ht2 : truthy (some r) = false := by simpa using ht
      simp [hasPermission, hr, ht2]

theorem getRoleLevel_invalid (r : String) (hv : isValidRole (some r) = false) :
    getRoleLevel (some r) = .number (-1) ∨ ∃ i, getRoleLevel (some r) = .inherited i := by
  cases hp : objectPrototypeGet r with
  | none => exact Or.inl (getRoleLevel_unknown r hv hp)
  | some i =>
    right
    exact ⟨i, by simp [getRoleLevel, getProperty, getOwn_ROLE_HIERARCHY_unknown r hv, hp]⟩

theorem hasMinimumRole_invalid_role (u : User) (m : String)
    (hm : isValidRole (some m) = true) (hv : isValidRole u.role = false) :
    hasMinimumRole (some u) (some m) = false := by
  cases hr : u.role with
  | none => simp [hasMinimumRole, hr, truthy]
  | some r =>
    rw [hr] at hv
    by_cases ht : truthy (some r) = true
    · rcases getRoleLevel_invalid r hv with h | ⟨i, h⟩
      · simp [hasMinimumRole, hr, ht, h, LevelValue.strictEq]
      · obtain ⟨n, hn⟩ : ∃ n, getRoleLevel (some m) = .number n := by
          rcases (isValidRole_iff (some m)).mp hm with h2 | h2 | h2 <;>
          · rw [h2]
            exact ⟨_, rfl⟩
        simp [hasMinimumRole, hr, ht, h, hn, LevelValue.strictEq, LevelValue.ge]
    · have ht2 : truthy (some r) = false := by simpa using ht
      simp [hasMinimumRole, hr, ht2]

theorem contains_eq_true_iff (items : List String) (p : String) :
    items.contains p = true ↔ p ∈ items := by
  simp

theorem mem_moderator_of_mem_user (p : String) (h : p ∈ USER_PERMISSIONS) :
    p ∈ MODERATOR_PERMISSIONS := by
  unfold MODERATOR_PERMISSIONS
  exact List.mem_append_left _ h

theorem mem_admin_of_mem_moderator (p : String) (h : p ∈ MODERATOR_PERMISSIONS) :
    p ∈ ADMIN_PERMISSIONS := by
  unfold ADMIN_PERMISSIONS
  exact List.mem_append_left _ h

theorem hasPermission_user (u : User) (p : String) (h : u.role = some "user") :
    hasPermission (some u) p = .ok (USER_PERMISSIONS.contains p) := by
  simp [hasPermission, h, truthy, getRolePermissions, getProperty, getOwn, ROLE_PERMISSIONS,
    ROLES.USER, ROLES.MODERATOR, ROLES.ADMIN]

theorem hasPermission_moderator (u : User) (p : String) (h : u.role = some "moderator") :
    hasPermission (some u) p = .ok (MODERATOR_PERMISSIONS.contains p) := by
  simp [hasPermission, h, truthy, getRolePermissions, getProperty, getOwn, ROLE_PERMISSIONS,
    ROLES.USER, ROLES.MODERATOR, ROLES.ADMIN]

theorem hasPermission_admin (u : User) (p : String) (h : u.role = some "admin") :
    hasPermission (some u) p = .ok (ADMIN_PERMISSIONS.contains p) := by
  simp [hasPermission, h, truthy, getRolePermissions, getProperty, getOwn, ROLE_PERMISSIONS,
    ROLES.USER, ROLES.MODERATOR, ROLES.ADMIN]

theorem valid_role_cases (u : User) (hv : isValidRole u.role = true) :
    (u.role = some "user" ∧ getRoleLevel u.role = .number 0 ∧
      ∀ p, hasPermission (some u) p = .ok (USER_PERMISSIONS.contains p)) ∨
    (u.role = some "moderator" ∧ getRoleLevel u.role = .number 1 ∧
      ∀ p, hasPermission (some u) p = .ok (MODERATOR_PERMISSIONS.contains p)) ∨
    (u.role = some "admin" ∧ getRoleLevel u.role = .number 2 ∧
      ∀ p, hasPermission (some u) p = .ok (ADMIN_PERMISSIONS.contains p)) := by
  rcases (isValidRole_iff u.role).mp hv with h | h | h
  · exact Or.inl ⟨h, by rw [h]; rfl, fun p => hasPermission_user u p h⟩
  · exact Or.inr (Or.inl ⟨h, by rw [h]; rfl, fun p => hasPermission_moderator u p h⟩)
  · exact Or.inr (Or.inr ⟨h, by rw [h]; rfl, fun p => hasPermission_admin u p h⟩)

/-! ## Permission check -/

/-- C1: `hasPermission(identity, permission)` returns false when the identity
is absent or its role is absent or empty; otherwise it returns true exactly
when `permission` is an element of the array `getRolePermissions(identity.role)`
yields, and whenever that value is an array the call returns the membership
test itself. -/
theorem hasPermission_spec (user : Option User) (permission : String) :
    (user = none → hasPermission user permission = .ok false) ∧
    (∀ u, user = some u → truthy u.role = false →
      hasPermission user permission = .ok false) ∧
    (∀ u, user = some u → truthy u.role = true →
      ((hasPermission user permission = .ok true ↔
          ∃ items, getRolePermissions u.role = .array items ∧ permission ∈ items) ∧
        (∀ items, getRolePermissions u.role = .array items →
          hasPermission user permission = .ok (decide (permission ∈ items))))) := by
  refine ⟨?_, ?_, ?_⟩
  · intro h
    subst h
    rfl
  · intro u hu hr
    subst hu
    simp [hasPermission, hr]
  · intro u hu hr
    subst hu
    constructor
    · cases hp : getRolePermissions u.role with
      | array items => simp [hasPermission, hr, hp]
      | inherited v => simp [hasPermission, hr, hp]
    · intro items hp
      simp [hasPermission, hr, hp]

/-! ## Route access -/

/-- C2, as stated, fails, in two ways. On the path `/api/users` the first
entry whose pattern matches is `/api`, which carries no requirement; the scan
goes on and the later entry `/api/users` decides (deny), while without that
later entry the same call allows. And the scan follows `Object.entries`, not
the declaration: in the table declared as `''` (admin only) and then `'1'`
(user only) the key `1` is an array index and is enumerated first, so on the
path `1x` the entry declared second decides (allow), although the entry
declared first matches too and denies. -/
theorem canAccessRoute_later_entry_decides :
    startsWith "/api/users" "/api" = true ∧
    canAccessRoute (some ⟨some "user", some "u1", none⟩) "/api/users"
      (some [("/api", ⟨none, none, none⟩),
             ("/api/users", ⟨some (.single "admin"), none, none⟩)]) = .ok false ∧
    canAccessRoute (some ⟨some "user", some "u1", none⟩) "/api/users"
      (some [("/api", ⟨none, none, none⟩)]) = .ok true ∧
    objectEntries [("/api", (⟨none, none, none⟩ : Requirements)),
        ("/api/users", ⟨some (.single "admin"), none, none⟩)] =
      [("/api", ⟨none, none, none⟩), ("/api/users", ⟨some (.single "admin"), none, none⟩)] ∧
    startsWith "1x" "" = true ∧
    startsWith "1x" "1" = true ∧
    checkRequirements (some ⟨some "user", some "u1", none⟩)
      ⟨some (.single "admin"), none, none⟩ = some (.ok false) ∧
    objectEntries [("", (⟨some (.single "admin"), none, none⟩ : Requirements)),
        ("1", ⟨some (.single "user"), none, none⟩)] =
      [("1", ⟨some (.single "user"), none, none⟩),
       ("", ⟨some (.single "admin"), none, none⟩)] ∧
    canAccessRoute (some ⟨some "user", some "u1", none⟩) "1x"
      (some (objectEntries [("", ⟨some (.single "admin"), none, none⟩),
        ("1", ⟨some (.single "user"), none, none⟩)])) = .ok true := by
  decide

/-- C2, amended: for every route table (given by the properties it declares,
in order), non-empty path and identity, when the first entry, in the order in
which `Object.entries` enumerates the table, whose pattern is a string-prefix
of the path carries a non-empty requirement (a truthy `role`, `permission` or
`minimumRole`), `canAccessRoute` returns the result of evaluating that entry,
whatever entries follow it in the enumeration. That order is the declaration
order when the declared keys are distinct and none is an array index or
`__proto__`: the entry is then also the first matching one as declared. -/
theorem canAccessRoute_first_match (user : Option User) (route : String)
    (declared pre : List (String × Requirements)) (pattern : String)
    (requirements : Requirements) (post : List (String × Requirements))
    (hroute : route ≠ "")
    (henum : objectEntries declared = pre ++ (pattern, requirements) :: post)
    (hpre : ∀ e ∈ pre, startsWith route e.1 = false)
    (hmatch : startsWith route pattern = true)
    (hreq : RoleRequirement.truthy requirements.role = true ∨
      truthy requirements.permission = true ∨ truthy requirements.minimumRole = true) :
    ∃ result, checkRequirements user requirements = some result ∧
      canAccessRoute user route (some (objectEntries declared)) = result ∧
      (∀ later : List (String × Requirements),
        canAccessRoute user route (some (pre ++ (pattern, requirements) :: later)) = result) ∧
      ((declared.map Prod.fst).Nodup → (∀ e ∈ declared, arrayIndex e.1 = none) →
        (∀ e ∈ declared, e.1 ≠ "__proto__") →
        declared = pre ++ (pattern, requirements) :: post) := by
  obtain ⟨result, hres⟩ := checkRequirements_decides user requirements hreq
  have hlater : ∀ later : List (String × Requirements),
      canAccessRoute user route (some (pre ++ (pattern, requirements) :: later)) = result := by
    intro later
    simp only [canAccessRoute, if_neg hroute]
    rw [scanRoutes_skip user route pre _ hpre]
    simp [scanRoutes, hmatch, hres]
  refine ⟨result, hres, ?_, hlater, ?_⟩
  · rw [henum]
    exact hlater post
  · intro hkeys hindex hproto
    rw [← henum]
    exact (objectEntries_declaration_order declared hkeys hindex hproto).symm

theorem canAccessRoute_first_match_witness :
    ∃ result,
      checkRequirements (some ⟨some "user", some "u1", none⟩)
        ⟨some (.single "user"), none, none⟩ = some result ∧
      canAccessRoute (some ⟨some "user", some "u1", none⟩) "1x"
        (some (objectEntries [("", ⟨some (.single "admin"), none, none⟩),
          ("1", ⟨some (.single "user"), none, none⟩)])) = result ∧
      (∀ later : List (String × Requirements),
        canAccessRoute (some ⟨some "user", some "u1", none⟩) "1x"
          (some ([] ++ ("1", ⟨some (.single "user"), none, none⟩) :: later)) = result) ∧
      ((List.map Prod.fst [("", (⟨some (.single "admin"), none, none⟩ : Requirements)),
          ("1", ⟨some (.single "user"), none, none⟩)]).Nodup →
        (∀ e ∈ [("", (⟨some (.single "admin"), none, none⟩ : Requirements)),
          ("1", ⟨some (.single "user"), none, none⟩)], arrayIndex e.1 = none) →
        (∀ e ∈ [("", (⟨some (.single "admin"), none, none⟩ : Requirements)),
          ("1", ⟨some (.single "user"), none, none⟩)], e.1 ≠ "__proto__") →
        [("", (⟨some (.single "admin"), none, none⟩ : Requirements)),
          ("1", ⟨some (.single "user"), none, none⟩)] =
        [] ++ ("1", ⟨some (.single "user"), none, none⟩) ::
          [("", ⟨some (.single "admin"), none, none⟩)]) :=
  canAccessRoute_first_match (some ⟨some "user", some "u1", none⟩) "1x"
    [("", ⟨some (.single "admin"), none, none⟩), ("1", ⟨some (.single "user"), none, none⟩)]
    [] "1" ⟨some (.single "user"), none, none⟩ [("", ⟨some (.single "admin"), none, none⟩)]
    (by decide) (by decide) (by decide) (by decide) (by decide)

/-- C3: `canAccessRoute(identity, path, table)` returns true for every
identity, absent ones included, whenever the table is absent, the path is
empty, or no entry's pattern is a string-prefix of the path. -/
theorem canAccessRoute_allows_unrestricted (user : Option User) (route : String)
    (routeConfig : Option (List (String × Requirements)))
    (h : routeConfig = none ∨ route = "" ∨
      ∃ entries, routeConfig = some entries ∧ ∀ e ∈ entries, startsWith route e.1 = false) :
    canAccessRoute user route routeConfig = .ok true := by
  rcases h with h | h | ⟨entries, h, hno⟩
  · subst h
    rfl
  · subst h
    cases routeConfig with
    | none => rfl
    | some entries => simp [canAccessRoute]
  · subst h
    by_cases hroute : route = ""
    · simp [canAccessRoute, hroute]
    · simp only [canAccessRoute, if_neg hroute]
      exact scanRoutes_no_match user route entries hno

theorem canAccessRoute_allows_unrestricted_witness :
    canAccessRoute none "/public/page"
      (some [("/admin", ⟨some (.single "admin"), none, none⟩),
             ("/moderator", ⟨some (.anyOf ["admin", "moderator"]), none, none⟩),
             ("/api/users", ⟨none, none, some "moderator"⟩)]) = .ok true :=
  canAccessRoute_allows_unrestricted none "/public/page" _
    (Or.inr (Or.inr ⟨_, rfl, by decide⟩))

/-! ## Minimum-role check -/

/-- C4, failing input: `constructor` is not a valid role, yet
`ROLE_HIERARCHY['constructor']` is the inherited function `Object`, not
`undefined`, so `getRoleLevel` does not fall back to `-1`, the guard against
`-1` does not fire, and `Object >= Object` (a comparison of two equal texts)
is true: `hasMinimumRole({role: 'constructor'}, 'constructor')` returns
true although both roles are invalid. The same happens for two different
inherited names. -/
theorem hasMinimumRole_inherited_names :
    isValidRole (some "constructor") = false ∧
    isValidRole (some "toString") = false ∧
    getRoleLevel (some "constructor") = .inherited (.builtinFunction "Object") ∧
    hasMinimumRole (some ⟨some "constructor", some "u1", none⟩) (some "constructor") = true ∧
    hasMinimumRole (some ⟨some "toString", some "u1", none⟩) (some "constructor") = true := by
  decide

/-- C5, as stated, fails: for an identity with the unknown role `guest` and
the target role `guest` both levels are `-1`, so the level of the identity is
`>=` the level of the target, yet `hasMinimumRole` returns false. -/
theorem hasMinimumRole_not_level_order :
    getRoleLevel (some "guest") = .number (-1) ∧
    (getRoleLevel (some "guest")).ge (getRoleLevel (some "guest")) = true ∧
    hasMinimumRole (some ⟨some "guest", some "u1", none⟩) (some "guest") = false := by
  decide

/-- C5, amended: for every identity and every target role whose levels are
numbers `a` and `b` (the three valid roles, and every invalid role that
resolves to the sentinel `-1`), `hasMinimumRole(identity, role)` is true iff
neither level is `-1` and `a >= b`. -/
theorem hasMinimumRole_iff_real_levels (u : User) (minimumRole : Option String) (a b : Int)
    (ha : getRoleLevel u.role = .number a) (hb : getRoleLevel minimumRole = .number b) :
    hasMinimumRole (some u) minimumRole = true ↔ (a ≠ -1 ∧ b ≠ -1 ∧ b ≤ a) := by
  by_cases hr : truthy u.role = true
  · simp [hasMinimumRole, hr, ha, hb, LevelValue.strictEq, LevelValue.ge, and_assoc]
  · have hr2 : truthy u.role = false := by simpa using hr
    have hlevel : getRoleLevel u.role = .number (-1) := by
      cases hrole : u.role with
      | none => rfl
      | some r =>
        have hempty : r = "" := by simpa [truthy, hrole] using hr2
        subst hempty
        decide
    have ha1 : a = -1 := by
      rw [hlevel] at ha
      exact (LevelValue.number.inj ha).symm
    simp [hasMinimumRole, hr2, ha1]

theorem hasMinimumRole_iff_real_levels_witness :
    hasMinimumRole (some ⟨some "admin", some "u1", none⟩) (some "moderator") = true ↔
      ((2 : Int) ≠ -1 ∧ (1 : Int) ≠ -1 ∧ (1 : Int) ≤ 2) :=
  hasMinimumRole_iff_real_levels ⟨some "admin", some "u1", none⟩ (some "moderator") 2 1
    (by decide) (by decide)

/-! ## Ownership -/

/-- C6, failing input: an identity with neither `_id` nor `id` and a resource
without the owner field. Both ids evaluate to `undefined`, neither resolves
to a value, and `undefined === undefined` makes `ownsResource` return true. -/
theorem ownsResource_unresolved_ids :
    jsOr (none : Option String) none = none ∧
    getProperty [("title", OwnerValue.bare "General")] (some "createdBy") = .undefined ∧
    ownsResource (some ⟨some "user", none, none⟩)
      (some [("title", OwnerValue.bare "General")]) none = true ∧
    ownsResource (some ⟨some "user", none, none⟩) (some []) (some "createdBy") = true := by
  decide

/-! ## Edit and delete rules -/

/-- C7: `canEditResource(identity, resource, editOwn, editAny, ownerField)` is
false for an absent identity and otherwise equals
`hasPermission(identity, editAny) || (ownsResource(identity, resource, ownerField)
&& hasPermission(identity, editOwn))`: when the two permission checks return
`a` and `o` the call returns `a || (owns && o)`, when they throw the call
throws likewise, and there is no third case. -/
theorem canEditResource_spec (user : Option User)
    (resource : Option (List (String × OwnerValue)))
    (editOwnPermission editAnyPermission : String) (ownerField : Option String) :
    (user = none →
      canEditResource user resource editOwnPermission editAnyPermission ownerField = .ok false) ∧
    (∀ u, user = some u →
      (∀ a o : Bool, hasPermission user editAnyPermission = .ok a →
        hasPermission user editOwnPermission = .ok o →
        canEditResource user resource editOwnPermission editAnyPermission ownerField =
          .ok (a || (ownsResource user resource ownerField && o))) ∧
      (∀ e, hasPermission user editAnyPermission = .error e →
        canEditResource user resource editOwnPermission editAnyPermission ownerField =
          .error e) ∧
      ((∃ a o, hasPermission user editAnyPermission = .ok a ∧
          hasPermission user editOwnPermission = .ok o) ∨
        (∃ e, hasPermission user editAnyPermission = .error e ∧
          hasPermission user editOwnPermission = .error e))) := by
  refine ⟨?_, ?_⟩
  · intro h
    subst h
    rfl
  · intro u hu
    subst hu
    refine ⟨?_, ?_, ?_⟩
    · intro a o ha ho
      cases a <;> cases o <;>
        cases hown : ownsResource (some u) resource ownerField <;>
          simp [canEditResource, ha, ho, hown]
    · intro e he
      simp [canEditResource, he]
    · by_cases hr : truthy u.role = true
      · cases hp : getRolePermissions u.role with
        | array items =>
          left
          exact ⟨items.contains editAnyPermission, items.contains editOwnPermission,
            by simp [hasPermission, hr, hp], by simp [hasPermission, hr, hp]⟩
        | inherited v =>
          right
          exact ⟨.typeError, by simp [hasPermission, hr, hp], by simp [hasPermission, hr, hp]⟩
      · have hr2 : truthy u.role = false := by simpa using hr
        left
        exact ⟨false, false, by simp [hasPermission, hr2], by simp [hasPermission, hr2]⟩

/-- C8: `canDeleteResource` and `canEditResource` are the same rule: on equal
arguments they give equal results. -/
theorem canDeleteResource_eq_canEditResource (user : Option User)
    (resource : Option (List (String × OwnerValue))) (a b : String) (f : Option String) :
    canDeleteResource user resource a b f = canEditResource user resource a b f := by
  rfl

/-! ## Role tables -/

/-- C9, failing input: `getRolePermissions('constructor')` is not the empty
list. `ROLE_PERMISSIONS['constructor']` is the function `Object` inherited
from `Object.prototype`, a truthy value, so `|| []` does not apply and the
function is returned; likewise `__proto__` yields the prototype object.
Unknown names that are not inherited, and absent values, do yield `[]`. -/
theorem getRolePermissions_inherited_names :
    isValidRole (some "constructor") = false ∧
    getRolePermissions (some "constructor") = .inherited (.builtinFunction "Object") ∧
    getRolePermissions (some "__proto__") = .inherited .objectPrototype ∧
    getRolePermissions (some "invalid_role") = .array [] ∧
    getRolePermissions none = .array [] := by
  decide

/-- C10, failing input: `getRoleLevel('valueOf')` is not `-1`.
`ROLE_HIERARCHY['valueOf']` is a function inherited from `Object.prototype`,
which is not nullish, so `?? -1` does not apply. The three roles have levels
0, 1, 2 and unknown names that are not inherited have level `-1`. -/
theorem getRoleLevel_inherited_names :
    getRoleLevel (some "user") = .number 0 ∧
    getRoleLevel (some "moderator") = .number 1 ∧
    getRoleLevel (some "admin") = .number 2 ∧
    getRoleLevel (some "invalid") = .number (-1) ∧
    getRoleLevel none = .number (-1) ∧
    isValidRole (some "valueOf") = false ∧
    getRoleLevel (some "valueOf") = .inherited (.builtinFunction "valueOf") ∧
    (getRoleLevel (some "valueOf")).strictEq (-1) = false := by
  decide

/-! ## Valid roles and the superset law -/

/-- C11: `isValidRole(role)` is true iff `role` is exactly one of the strings
`user`, `moderator`, `admin`; it is false for the empty string, for absent
values and for every other string. -/
theorem isValidRole_spec (role : Option String) :
    (isValidRole role = true ↔
      role = some "user" ∨ role = some "moderator" ∨ role = some "admin") ∧
    isValidRole (some "") = false ∧
    isValidRole none = false ∧
    (role ≠ some "user" → role ≠ some "moderator" → role ≠ some "admin" →
      isValidRole role = false) := by
  refine ⟨isValidRole_iff role, by decide, by decide, ?_⟩
  intro h1 h2 h3
  cases h : isValidRole role with
  | false => rfl
  | true =>
    rcases (isValidRole_iff role).mp h with h4 | h4 | h4
    · exact absurd h4 h1
    · exact absurd h4 h2
    · exact absurd h4 h3

/-- C12: superset law. The permission list of `user` is contained in that of
`moderator`, which is contained in that of `admin`; and for two identities
with valid roles whose levels satisfy `a <= b`, every permission the first
holds the second holds too. -/
theorem permissions_superset :
    (∃ pu pm pa, getRolePermissions (some "user") = .array pu ∧
      getRolePermissions (some "moderator") = .array pm ∧
      getRolePermissions (some "admin") = .array pa ∧
      (∀ p ∈ pu, p ∈ pm) ∧ (∀ p ∈ pm, p ∈ pa)) ∧
    (∀ (u1 u2 : User) (a b : Int) (p : String),
      isValidRole u1.role = true → isValidRole u2.role = true →
      getRoleLevel u1.role = .number a → getRoleLevel u2.role = .number b → a ≤ b →
      hasPermission (some u1) p = .ok true → hasPermission (some u2) p = .ok true) := by
  constructor
  · exact ⟨USER_PERMISSIONS, MODERATOR_PERMISSIONS, ADMIN_PERMISSIONS, rfl, rfl, rfl,
      mem_moderator_of_mem_user, mem_admin_of_mem_moderator⟩
  · intro u1 u2 a b p hv1 hv2 ha hb hle hp
    rcases valid_role_cases u1 hv1 with ⟨_, hl1, hp1⟩ | ⟨_, hl1, hp1⟩ | ⟨_, hl1, hp1⟩ <;>
    rcases valid_role_cases u2 hv2 with ⟨_, hl2, hp2⟩ | ⟨_, hl2, hp2⟩ | ⟨_, hl2, hp2⟩ <;>
    rw [hl1] at ha <;> rw [hl2] at hb <;>
    simp only [LevelValue.number.injEq] at ha hb <;>
    subst ha <;> subst hb <;>
    first
      | omega
      | (rw [hp2]
         rw [hp1] at hp
         simp only [Except.ok.injEq, contains_eq_true_iff] at hp ⊢
         first
           | exact hp
           | exact mem_moderator_of_mem_user _ hp
           | exact mem_admin_of_mem_moderator _ hp
           | exact mem_admin_of_mem_moderator _ (mem_moderator_of_mem_user _ hp))

theorem permissions_superset_witness :
    hasPermission (some ⟨some "admin", some "u2", none⟩) "lock_forum" = .ok true :=
  permissions_superset.2 ⟨some "moderator", some "u1", none⟩ ⟨some "admin", some "u2", none⟩
    1 2 "lock_forum" (by decide) (by decide) (by decide) (by decide) (by decide) (by decide)

/-! ## Fail-closed behaviour -/

/-- C13, failing input: for an identity whose role is `constructor` (or
`toString`), `getRolePermissions` hands back a function inherited from
`Object.prototype`; it has no `includes` method and `hasPermission` throws a
`TypeError` instead of returning false. An unknown role that names no
inherited property does return false. -/
theorem hasPermission_throws_on_inherited_names :
    hasPermission (some ⟨some "constructor", some "u1", none⟩) "view_users" =
      .error .typeError ∧
    hasPermission (some ⟨some "toString", some "u1", none⟩) "view_users" =
      .error .typeError ∧
    hasPermission (some ⟨some "guest", some "u1", none⟩) "view_users" = .ok false := by
  decide

/-- C14, failing input: an identity with role `user` and neither `_id` nor
`id`, and a resource without the owner field. `ownsResource` compares
`undefined` with `undefined`, the identity holds `edit_own_forum`, and
`canEditResource` returns true. With an owner field present, or an absent
resource, the same identity is denied. -/
theorem canEditResource_identity_without_id :
    canEditResource (some ⟨some "user", none, none⟩)
      (some [("title", OwnerValue.bare "General")])
      PERMISSIONS.EDIT_OWN_FORUM PERMISSIONS.EDIT_ANY_FORUM none = .ok true ∧
    canEditResource (some ⟨some "user", none, none⟩)
      (some [("createdBy", OwnerValue.bare "u2")])
      PERMISSIONS.EDIT_OWN_FORUM PERMISSIONS.EDIT_ANY_FORUM none = .ok false ∧
    canEditResource (some ⟨some "user", none, none⟩) none
      PERMISSIONS.EDIT_OWN_FORUM PERMISSIONS.EDIT_ANY_FORUM none = .ok false := by
  decide

/-! ## Role checks -/

/-- C15: `hasRole(identity, role)` is false when the identity is absent, when
it has no role (its role is absent or the empty string), or when the given
role is absent; otherwise it is true iff `identity.role` and `role` are the
same string. There is no hierarchy: an admin does not have the role `user`. -/
theorem hasRole_spec (user : Option User) (role : Option String) :
    (user = none → hasRole user role = false) ∧
    (∀ u, user = some u → truthy u.role = false → hasRole user role = false) ∧
    (∀ u, user = some u → role = none → hasRole user role = false) ∧
    (∀ u r s, user = some u → u.role = some r → r ≠ "" → role = some s →
      (hasRole user role = true ↔ r = s)) ∧
    hasRole (some ⟨some "admin", some "u1", none⟩) (some "user") = false := by
  refine ⟨?_, ?_, ?_, ?_, by decide⟩
  · intro h
    subst h
    rfl
  · intro u hu hr
    subst hu
    simp [hasRole, hr]
  · intro u hu hrole
    subst hu
    subst hrole
    cases hr : u.role with
    | none => simp [hasRole, hr, truthy]
    | some r => simp [hasRole, hr]
  · intro u r s hu hr hne hrole
    subst hu
    subst hrole
    simp [hasRole, hr, truthy, hne]

/-- C16: `hasAnyRole(identity, roles)` is false when the identity is absent,
when it has no role (its role is absent or the empty string), and when
`roles` is absent or is not an array; otherwise it is true iff
`identity.role` is an element of `roles`, hence false for the empty array. -/
theorem hasAnyRole_spec (user : Option User) (roles : Option RoleRequirement) :
    (user = none → hasAnyRole user roles = false) ∧
    (∀ u, user = some u → truthy u.role = false → hasAnyRole user roles = false) ∧
    (∀ u, user = some u → roles = none → hasAnyRole user roles = false) ∧
    (∀ u s, user = some u → roles = some (.single s) → hasAnyRole user roles = false) ∧
    (∀ u r rs, user = some u → u.role = some r → r ≠ "" → roles = some (.anyOf rs) →
      (hasAnyRole user roles = true ↔ r ∈ rs)) ∧
    (∀ u, hasAnyRole (some u) (some (.anyOf [])) = false) := by
  refine ⟨?_, ?_, ?_, ?_, ?_, ?_⟩
  · intro h
    subst h
    rfl
  · intro u hu hr
    subst hu
    simp [hasAnyRole, hr]
  · intro u hu hroles
    subst hu
    subst hroles
    cases ht : truthy u.role <;> simp [hasAnyRole, ht]
  · intro u s hu hroles
    subst hu
    subst hroles
    cases ht : truthy u.role <;> simp [hasAnyRole, ht]
  · intro u r rs hu hr hne hroles
    subst hu
    subst hroles
    simp [hasAnyRole, hr, truthy, hne]
  · intro u
    cases ht : truthy u.role with
    | false => simp [hasAnyRole, ht]
    | true =>
      cases hr : u.role with
      | none => simp [hasAnyRole, ht, hr]
      | some r => simp [hasAnyRole, ht, hr]

theorem hasMinimumRole_moderator_valid (u : User) (hv : isValidRole u.role = true) :
    hasMinimumRole (some u) (some "moderator") =
      decide (u.role = some "moderator" ∨ u.role = some "admin") := by
  rcases (isValidRole_iff u.role).mp hv with h | h | h <;>
    simp [hasMinimumRole, h, truthy, getRoleLevel, getProperty, getOwn, ROLE_HIERARCHY,
      ROLES.USER, ROLES.MODERATOR, ROLES.ADMIN, LevelValue.strictEq, LevelValue.ge]

theorem hasMinimumRole_user_valid (u : User) (hv : isValidRole u.role = true) :
    hasMinimumRole (some u) (some "user") = true := by
  rcases (isValidRole_iff u.role).mp hv with h | h | h <;>
    simp [hasMinimumRole, h, truthy, getRoleLevel, getProperty, getOwn, ROLE_HIERARCHY,
      ROLES.USER, ROLES.MODERATOR, ROLES.ADMIN, LevelValue.strictEq, LevelValue.ge]

theorem hasRole_admin_valid (u : User) (hv : isValidRole u.role = true) :
    hasRole (some u) (some "admin") = decide (u.role = some "admin") := by
  rcases (isValidRole_iff u.role).mp hv with h | h | h <;> simp [hasRole, h, truthy]

theorem hasAnyRole_admin_moderator_valid (u : User) (hv : isValidRole u.role = true) :
    hasAnyRole (some u) (some (.anyOf ["admin", "moderator"])) =
      decide (u.role = some "admin" ∨ u.role = some "moderator") := by
  rcases (isValidRole_iff u.role).mp hv with h | h | h <;> simp [hasAnyRole, h, truthy]

/-! ## Route tables -/

/-- C17: with the table of the test suite and an identity whose role is one
of the three valid roles, a path starting with `/admin` is accessible iff the
role is `admin`, a path starting with `/moderator` iff the role is `admin` or
`moderator`, a path starting with `/api/users` iff the role is `moderator` or
`admin`, and a path starting with none of the three is accessible. -/
theorem canAccessRoute_test_table (u : User) (route : String)
    (hvalid : isValidRole u.role = true) :
    (startsWith route "/admin" = true →
      canAccessRoute (some u) route (some RbacTest.routeConfig) =
        .ok (decide (u.role = some "admin"))) ∧
    (startsWith route "/moderator" = true →
      canAccessRoute (some u) route (some RbacTest.routeConfig) =
        .ok (decide (u.role = some "admin" ∨ u.role = some "moderator"))) ∧
    (startsWith route "/api/users" = true →
      canAccessRoute (some u) route (some RbacTest.routeConfig) =
        .ok (decide (u.role = some "moderator" ∨ u.role = some "admin"))) ∧
    (startsWith route "/admin" = false → startsWith route "/moderator" = false →
      startsWith route "/api/users" = false →
      canAccessRoute (some u) route (some RbacTest.routeConfig) = .ok true) := by
  refine ⟨?_, ?_, ?_, ?_⟩
  · intro h
    have hne := ne_empty_of_startsWith route _ h (by decide)
    rw [← hasRole_admin_valid u hvalid]
    simp [canAccessRoute, hne, RbacTest.routeConfig, scanRoutes, h, checkRequirements,
      RoleRequirement.truthy, ROLES.ADMIN, ROLES.MODERATOR]
  · intro h
    have hne := ne_empty_of_startsWith route _ h (by decide)
    have h1 := startsWith_incomparable route "/moderator" "/admin" h (by decide) (by decide)
    rw [← hasAnyRole_admin_moderator_valid u hvalid]
    simp [canAccessRoute, hne, RbacTest.routeConfig, scanRoutes, h, h1, checkRequirements,
      RoleRequirement.truthy, ROLES.ADMIN, ROLES.MODERATOR]
  · intro h
    have hne := ne_empty_of_startsWith route _ h (by decide)
    have h1 := startsWith_incomparable route "/api/users" "/admin" h (by decide) (by decide)
    have h2 := startsWith_incomparable route "/api/users" "/moderator" h (by decide) (by decide)
    rw [← hasMinimumRole_moderator_valid u hvalid]
    simp [canAccessRoute, hne, RbacTest.routeConfig, scanRoutes, h, h1, h2, checkRequirements,
      RoleRequirement.truthy, truthy, ROLES.ADMIN, ROLES.MODERATOR]
  · intro h1 h2 h3
    by_cases hne : route = ""
    · simp [canAccessRoute, hne]
    · simp only [canAccessRoute, if_neg hne]
      apply scanRoutes_no_match
      simp [RbacTest.routeConfig, h1, h2, h3]

theorem canAccessRoute_test_table_witness :
    canAccessRoute (some ⟨some "user", some "u1", none⟩) "/admin/settings"
      (some RbacTest.routeConfig) = .ok false :=
  ((canAccessRoute_test_table ⟨some "user", some "u1", none⟩ "/admin/settings"
    (by decide)).1 (by decide)).trans (by decide)

/-- C18: under the production `ROUTE_CONFIG`, for every identity with a valid
role, a path starting with `/admin` or `/api/logs` is accessible iff the role
is `admin`; a path starting with `/moderator` or `/api/users` iff the role is
`moderator` or `admin`; a path starting with `/api/forums` or `/api/threads`
is accessible to all three roles. -/
theorem canAccessRoute_ROUTE_CONFIG (u : User) (route : String)
    (hvalid : isValidRole u.role = true) :
    ((startsWith route "/admin" = true ∨ startsWith route "/api/logs" = true) →
      canAccessRoute (some u) route (some ROUTE_CONFIG) =
        .ok (decide (u.role = some "admin"))) ∧
    ((startsWith route "/moderator" = true ∨ startsWith route "/api/users" = true) →
      canAccessRoute (some u) route (some ROUTE_CONFIG) =
        .ok (decide (u.role = some "moderator" ∨ u.role = some "admin"))) ∧
    ((startsWith route "/api/forums" = true ∨ startsWith route "/api/threads" = true) →
      canAccessRoute (some u) route (some ROUTE_CONFIG) = .ok true) := by
  have hmod : decide (u.role = some "admin" ∨ u.role = some "moderator") =
      decide (u.role = some "moderator" ∨ u.role = some "admin") := by
    simp [or_comm]
  refine ⟨?_, ?_, ?_⟩
  · rintro (h | h)
    · have hne := ne_empty_of_startsWith route _ h (by decide)
      rw [← hasRole_admin_valid u hvalid]
      simp [canAccessRoute, hne, ROUTE_CONFIG, scanRoutes, h, checkRequirements,
        RoleRequirement.truthy, ROLES.ADMIN, ROLES.MODERATOR, ROLES.USER]
    · have hne := ne_empty_of_startsWith route _ h (by decide)
      have h1 := startsWith_incomparable route "/api/logs" "/admin" h (by decide) (by decide)
      have h2 := startsWith_incomparable route "/api/logs" "/moderator" h (by decide) (by decide)
      have h3 := startsWith_incomparable route "/api/logs" "/api/users" h (by decide) (by decide)
      rw [← hasRole_admin_valid u hvalid]
      simp [canAccessRoute, hne, ROUTE_CONFIG, scanRoutes, h, h1, h2, h3, checkRequirements,
        RoleRequirement.truthy, truthy, ROLES.ADMIN, ROLES.MODERATOR, ROLES.USER]
  · rintro (h | h)
    · have hne := ne_empty_of_startsWith route _ h (by decide)
      have h1 := startsWith_incomparable route "/moderator" "/admin" h (by decide) (by decide)
      rw [← hmod, ← hasAnyRole_admin_moderator_valid u hvalid]
      simp [canAccessRoute, hne, ROUTE_CONFIG, scanRoutes, h, h1, checkRequirements,
        RoleRequirement.truthy, ROLES.ADMIN, ROLES.MODERATOR, ROLES.USER]
    · have hne := ne_empty_of_startsWith route _ h (by decide)
      have h1 := startsWith_incomparable route "/api/users" "/admin" h (by decide) (by decide)
      have h2 := startsWith_incomparable route "/api/users" "/moderator" h (by decide) (by decide)
      rw [← hasMinimumRole_moderator_valid u hvalid]
      simp [canAccessRoute, hne, ROUTE_CONFIG, scanRoutes, h, h1, h2, checkRequirements,
        RoleRequirement.truthy, truthy, ROLES.ADMIN, ROLES.MODERATOR, ROLES.USER]
  · rintro (h | h)
    · have hne := ne_empty_of_startsWith route _ h (by decide)
      have h1 := startsWith_incomparable route "/api/forums" "/admin" h (by decide) (by decide)
      have h2 := startsWith_incomparable route "/api/forums" "/moderator" h (by decide) (by decide)
      have h3 := startsWith_incomparable route "/api/forums" "/api/users" h (by decide) (by decide)
      have h4 := startsWith_incomparable route "/api/forums" "/api/logs" h (by decide) (by decide)
      rw [← hasMinimumRole_user_valid u hvalid]
      simp [canAccessRoute, hne, ROUTE_CONFIG, scanRoutes, h, h1, h2, h3, h4, checkRequirements,
        RoleRequirement.truthy, truthy, ROLES.ADMIN, ROLES.MODERATOR, ROLES.USER]
    · have hne := ne_empty_of_startsWith route _ h (by decide)
      have h1 := startsWith_incomparable route "/api/threads" "/admin" h (by decide) (by decide)
      have h2 := startsWith_incomparable route "/api/threads" "/moderator" h (by decide) (by decide)
      have h3 := startsWith_incomparable route "/api/threads" "/api/users" h (by decide) (by decide)
      have h4 := startsWith_incomparable route "/api/threads" "/api/logs" h (by decide) (by decide)
      have h5 := startsWith_incomparable route "/api/threads" "/api/forums" h (by decide) (by decide)
      rw [← hasMinimumRole_user_valid u hvalid]
      simp [canAccessRoute, hne, ROUTE_CONFIG, scanRoutes, h, h1, h2, h3, h4, h5,
        checkRequirements, RoleRequirement.truthy, truthy, ROLES.ADMIN, ROLES.MODERATOR,
        ROLES.USER]

theorem canAccessRoute_ROUTE_CONFIG_witness :
    canAccessRoute (some ⟨some "moderator", some "u1", none⟩) "/api/users/42/role"
      (some ROUTE_CONFIG) = .ok true :=
  ((canAccessRoute_ROUTE_CONFIG ⟨some "moderator", some "u1", none⟩ "/api/users/42/role"
    (by decide)).2.1 (Or.inr (by decide))).trans (by decide)

theorem not_admin_of_invalid (u : User) (hv : isValidRole u.role = false) :
    u.role ≠ some "admin" := by
  intro h
  rw [h] at hv
  exact absurd hv (by decide)

/-! ## Permissions by role -/

/-- C19: `change_user_role` is admin-only, and so is each of the other
admin-specific permissions: for every identity, `hasPermission(identity, p)`
is true iff `identity.role` is `admin`. -/
theorem admin_only_permissions (user : Option User) (p : String)
    (hp : p ∈ [PERMISSIONS.CHANGE_USER_ROLE, PERMISSIONS.CREATE_USERS, PERMISSIONS.EDIT_USER,
      PERMISSIONS.DELETE_USER, PERMISSIONS.BAN_USER, PERMISSIONS.VIEW_LOGS,
      PERMISSIONS.VIEW_ANALYTICS, PERMISSIONS.MANAGE_SYSTEM]) :
    hasPermission user p = .ok true ↔ ∃ u, user = some u ∧ u.role = some "admin" := by
  cases user with
  | none => simp [hasPermission]
  | some u =>
    cases hv : isValidRole u.role with
    | false =>
      have h1 := hasPermission_invalid_role u p hv
      have h2 := not_admin_of_invalid u hv
      simp [h1, h2]
    | true =>
      simp only [List.mem_cons, List.mem_singleton, List.not_mem_nil, or_false] at hp
      rcases valid_role_cases u hv with ⟨hr, _, hperm⟩ | ⟨hr, _, hperm⟩ | ⟨hr, _, hperm⟩ <;>
      rcases hp with rfl | rfl | rfl | rfl | rfl | rfl | rfl | rfl <;>
      rw [hperm] <;>
      simp only [hr, Option.some.injEq, exists_eq_left', Except.ok.injEq] <;>
      decide

theorem admin_only_permissions_witness :
    hasPermission (some ⟨some "admin", some "u1", none⟩) "change_user_role" = .ok true ↔
      ∃ u, some (⟨some "admin", some "u1", none⟩ : User) = some u ∧ u.role = some "admin" :=
  admin_only_permissions (some ⟨some "admin", some "u1", none⟩) "change_user_role" (by decide)

theorem hasPermission_moderation_iff (user : Option User) (p : String)
    (hp : p ∈ [PERMISSIONS.EDIT_ANY_FORUM, PERMISSIONS.DELETE_ANY_FORUM,
      PERMISSIONS.EDIT_ANY_THREAD, PERMISSIONS.DELETE_ANY_THREAD,
      PERMISSIONS.EDIT_ANY_REPLY, PERMISSIONS.DELETE_ANY_REPLY,
      PERMISSIONS.LOCK_FORUM, PERMISSIONS.LOCK_THREAD,
      PERMISSIONS.MODERATE_CONTENT, PERMISSIONS.VIEW_REPORTS]) :
    hasPermission user p = .ok true ↔ hasMinimumRole user (some "moderator") = true := by
  cases user with
  | none => simp [hasPermission, hasMinimumRole]
  | some u =>
    cases hv : isValidRole u.role with
    | false =>
      have h1 := hasPermission_invalid_role u p hv
      have h2 := hasMinimumRole_invalid_role u "moderator" (by decide) hv
      simp [h1, h2]
    | true =>
      rw [hasMinimumRole_moderator_valid u hv]
      simp only [List.mem_cons, List.mem_singleton, List.not_mem_nil, or_false] at hp
      rcases valid_role_cases u hv with ⟨hr, _, hperm⟩ | ⟨hr, _, hperm⟩ | ⟨hr, _, hperm⟩ <;>
      rcases hp with rfl | rfl | rfl | rfl | rfl | rfl | rfl | rfl | rfl | rfl <;>
      rw [hperm] <;>
      simp only [hr, Except.ok.injEq] <;>
      decide

theorem hasPermission_user_LOCK_FORUM (u : User) (hr : u.role = some "user") :
    hasPermission (some u) PERMISSIONS.LOCK_FORUM = .ok false := by
  have hno : USER_PERMISSIONS.contains PERMISSIONS.LOCK_FORUM = false := by decide
  rw [hasPermission_user u _ hr, hno]

/-- C20: for each of the ten permissions the moderator role adds and every
identity, `hasPermission(identity, p)` is true iff
`hasMinimumRole(identity, 'moderator')` is true; and an identity with role
`user` never passes the `LOCK_FORUM` check of the forum-lock handler: whatever
the handler's undeclared identifiers are bound to, a run that passes the check
has an identity of moderator level, whose role is not `user`, and a run with a
`user` identity ends at the check (403, or a `ReferenceError` where
`NextResponse` is unbound). In the file as it stands `getUserFromCookie` is
unbound, so every run throws before the check and none passes. -/
theorem moderation_permissions (user : Option User) (p : String)
    (hp : p ∈ [PERMISSIONS.EDIT_ANY_FORUM, PERMISSIONS.DELETE_ANY_FORUM,
      PERMISSIONS.EDIT_ANY_THREAD, PERMISSIONS.DELETE_ANY_THREAD,
      PERMISSIONS.EDIT_ANY_REPLY, PERMISSIONS.DELETE_ANY_REPLY,
      PERMISSIONS.LOCK_FORUM, PERMISSIONS.LOCK_THREAD,
      PERMISSIONS.MODERATE_CONTENT, PERMISSIONS.VIEW_REPORTS]) :
    (hasPermission user p = .ok true ↔ hasMinimumRole user (some "moderator") = true) ∧
    (∀ (scope : ForumLock.Scope) (req : ForumLock.Request),
      ForumLock.PATCH scope req = .passes →
        ∃ getUserFromCookie u, scope.getUserFromCookie = some getUserFromCookie ∧
          getUserFromCookie req = some u ∧ u.role ≠ some "user" ∧
          hasPermission (some u) PERMISSIONS.LOCK_FORUM = .ok true ∧
          hasMinimumRole (some u) (some "moderator") = true) ∧
    (∀ (scope : ForumLock.Scope) (getUserFromCookie : ForumLock.Request → Option User)
        (req : ForumLock.Request) (u : User),
      scope.getUserFromCookie = some getUserFromCookie → getUserFromCookie req = some u →
      u.role = some "user" → req.body ≠ none →
        ForumLock.PATCH scope req =
          if scope.NextResponse then .forbidden403 else .referenceError "NextResponse") ∧
    (∀ req : ForumLock.Request,
      ForumLock.PATCH ForumLock.moduleScope req =
        if req.body = none then .bodyError else .referenceError "getUserFromCookie") := by
  refine ⟨hasPermission_moderation_iff user p hp, ?_, ?_, ?_⟩
  · intro scope req hpass
    unfold ForumLock.PATCH at hpass
    cases hb : req.body with
    | none => simp [hb] at hpass
    | some lock =>
      cases hg : scope.getUserFromCookie with
      | none => simp [hb, hg] at hpass
      | some getUser =>
        cases hu : getUser req with
        | none =>
          simp only [hb, hg, hu] at hpass
          split at hpass <;> simp at hpass
        | some u =>
          cases hperm : hasPermission (some u) PERMISSIONS.LOCK_FORUM with
          | error e => simp [hb, hg, hu, hperm] at hpass
          | ok b =>
            cases b with
            | false =>
              simp only [hb, hg, hu, hperm] at hpass
              split at hpass <;> simp at hpass
            | true =>
              refine ⟨getUser, u, rfl, hu, ?_, hperm, ?_⟩
              · intro hr
                rw [hasPermission_user_LOCK_FORUM u hr] at hperm
                simp at hperm
              · exact (hasPermission_moderation_iff (some u) PERMISSIONS.LOCK_FORUM
                  (by decide)).1 hperm
  · intro scope getUser req u hg hu hr hb
    cases hbody : req.body with
    | none => exact absurd hbody hb
    | some lock =>
      simp only [ForumLock.PATCH, hbody, hg, hu, hasPermission_user_LOCK_FORUM u hr]
  · intro req
    cases hbody : req.body with
    | none => simp [ForumLock.PATCH, hbody]
    | some lock => simp [ForumLock.PATCH, hbody, ForumLock.moduleScope]

theorem moderation_permissions_witness :
    hasMinimumRole (some ⟨some "moderator", some "u1", none⟩) (some "moderator") = true ∧
    ForumLock.PATCH ⟨some (fun _ => some ⟨some "user", some "u2", none⟩), true⟩
      ⟨some "session", some (some true)⟩ = .forbidden403 ∧
    ForumLock.PATCH ForumLock.moduleScope ⟨some "session", some (some true)⟩ =
      .referenceError "getUserFromCookie" :=
  have h := moderation_permissions (some ⟨some "moderator", some "u1", none⟩) "lock_forum"
    (by decide)
  ⟨h.1.1 (by decide),
    h.2.2.1 ⟨some (fun _ => some ⟨some "user", some "u2", none⟩), true⟩
      (fun _ => some ⟨some "user", some "u2", none⟩) ⟨some "session", some (some true)⟩
      ⟨some "user", some "u2", none⟩ rfl rfl rfl (by decide),
    h.2.2.2 ⟨some "session", some (some true)⟩⟩

theorem canEditResource_eval (u : User) (resource : Option (List (String × OwnerValue)))
    (own any : String) (f : Option String) (a o : Bool)
    (ha : hasPermission (some u) any = .ok a) (ho : hasPermission (some u) own = .ok o) :
    canEditResource (some u) resource own any f =
      .ok (a || (ownsResource (some u) resource f && o)) := by
  cases a <;> cases o <;> cases hown : ownsResource (some u) resource f <;>
    simp [canEditResource, ha, ho, hown]

theorem canDeleteResource_eval (u : User) (resource : Option (List (String × OwnerValue)))
    (own any : String) (f : Option String) (a o : Bool)
    (ha : hasPermission (some u) any = .ok a) (ho : hasPermission (some u) own = .ok o) :
    canDeleteResource (some u) resource own any f =
      .ok (a || (ownsResource (some u) resource f && o)) := by
  cases a <;> cases o <;> cases hown : ownsResource (some u) resource f <;>
    simp [canDeleteResource, ha, ho, hown]

/-! ## Edit and delete rules by role -/

/-- C21: for every identity with role `user`, every resource and every owner
field (the default included), and for each content type, `canEditResource`
with the own/any edit permissions and `canDeleteResource` with the own/any
delete permissions both equal `ownsResource(identity, resource)`. -/
theorem user_edits_exactly_own (u : User) (resource : Option (List (String × OwnerValue)))
    (f : Option String) (hr : u.role = some "user") :
    canEditResource (some u) resource PERMISSIONS.EDIT_OWN_FORUM PERMISSIONS.EDIT_ANY_FORUM f =
      .ok (ownsResource (some u) resource f) ∧
    canEditResource (some u) resource PERMISSIONS.EDIT_OWN_THREAD PERMISSIONS.EDIT_ANY_THREAD f =
      .ok (ownsResource (some u) resource f) ∧
    canEditResource (some u) resource PERMISSIONS.EDIT_OWN_REPLY PERMISSIONS.EDIT_ANY_REPLY f =
      .ok (ownsResource (some u) resource f) ∧
    canDeleteResource (some u) resource PERMISSIONS.DELETE_OWN_FORUM
      PERMISSIONS.DELETE_ANY_FORUM f = .ok (ownsResource (some u) resource f) ∧
    canDeleteResource (some u) resource PERMISSIONS.DELETE_OWN_THREAD
      PERMISSIONS.DELETE_ANY_THREAD f = .ok (ownsResource (some u) resource f) ∧
    canDeleteResource (some u) resource PERMISSIONS.DELETE_OWN_REPLY
      PERMISSIONS.DELETE_ANY_REPLY f = .ok (ownsResource (some u) resource f) := by
  have hany : ∀ p, USER_PERMISSIONS.contains p = false →
      hasPermission (some u) p = .ok false := fun p hp => by
    rw [hasPermission_user u p hr, hp]
  have hown : ∀ p, USER_PERMISSIONS.contains p = true →
      hasPermission (some u) p = .ok true := fun p hp => by
    rw [hasPermission_user u p hr, hp]
  refine ⟨?_, ?_, ?_, ?_, ?_, ?_⟩
  · rw [canEditResource_eval u resource _ _ f false true (hany _ (by decide)) (hown _ (by decide))]
    simp
  · rw [canEditResource_eval u resource _ _ f false true (hany _ (by decide)) (hown _ (by decide))]
    simp
  · rw [canEditResource_eval u resource _ _ f false true (hany _ (by decide)) (hown _ (by decide))]
    simp
  · rw [canDeleteResource_eval u resource _ _ f false true (hany _ (by decide))
      (hown _ (by decide))]
    simp
  · rw [canDeleteResource_eval u resource _ _ f false true (hany _ (by decide))
      (hown _ (by decide))]
    simp
  · rw [canDeleteResource_eval u resource _ _ f false true (hany _ (by decide))
      (hown _ (by decide))]
    simp

theorem user_edits_exactly_own_witness :
    canEditResource (some ⟨some "user", some "u1", none⟩)
      (some [("createdBy", OwnerValue.bare "u2")])
      PERMISSIONS.EDIT_OWN_FORUM PERMISSIONS.EDIT_ANY_FORUM none =
      .ok (ownsResource (some ⟨some "user", some "u1", none⟩)
        (some [("createdBy", OwnerValue.bare "u2")]) none) :=
  (user_edits_exactly_own ⟨some "user", some "u1", none⟩
    (some [("createdBy", OwnerValue.bare "u2")]) none rfl).1

/-- C22: for every identity with role `moderator` or `admin`, every resource
(owned or not, even absent) and every owner field, and for each content type,
`canEditResource` with the own/any edit permissions and `canDeleteResource`
with the own/any delete permissions return true. -/
theorem moderator_admin_edit_any (u : User) (resource : Option (List (String × OwnerValue)))
    (f : Option String) (hr : u.role = some "moderator" ∨ u.role = some "admin") :
    canEditResource (some u) resource PERMISSIONS.EDIT_OWN_FORUM PERMISSIONS.EDIT_ANY_FORUM f =
      .ok true ∧
    canEditResource (some u) resource PERMISSIONS.EDIT_OWN_THREAD PERMISSIONS.EDIT_ANY_THREAD f =
      .ok true ∧
    canEditResource (some u) resource PERMISSIONS.EDIT_OWN_REPLY PERMISSIONS.EDIT_ANY_REPLY f =
      .ok true ∧
    canDeleteResource (some u) resource PERMISSIONS.DELETE_OWN_FORUM
      PERMISSIONS.DELETE_ANY_FORUM f = .ok true ∧
    canDeleteResource (some u) resource PERMISSIONS.DELETE_OWN_THREAD
      PERMISSIONS.DELETE_ANY_THREAD f = .ok true ∧
    canDeleteResource (some u) resource PERMISSIONS.DELETE_OWN_REPLY
      PERMISSIONS.DELETE_ANY_REPLY f = .ok true := by
  have hany : ∀ p, MODERATOR_PERMISSIONS.contains p = true →
      hasPermission (some u) p = .ok true := fun p hp => by
    rcases hr with h | h
    · rw [hasPermission_moderator u p h, hp]
    · rw [hasPermission_admin u p h]
      have hmem := mem_admin_of_mem_moderator p ((contains_eq_true_iff _ p).mp hp)
      rw [(contains_eq_true_iff _ p).mpr hmem]
  refine ⟨?_, ?_, ?_, ?_, ?_, ?_⟩
  · rw [canEditResource_eval u resource _ _ f true true (hany _ (by decide)) (hany _ (by decide))]
    simp
  · rw [canEditResource_eval u resource _ _ f true true (hany _ (by decide)) (hany _ (by decide))]
    simp
  · rw [canEditResource_eval u resource _ _ f true true (hany _ (by decide)) (hany _ (by decide))]
    simp
  · rw [canDeleteResource_eval u resource _ _ f true true (hany _ (by decide))
      (hany _ (by decide))]
    simp
  · rw [canDeleteResource_eval u resource _ _ f true true (hany _ (by decide))
      (hany _ (by decide))]
    simp
  · rw [canDeleteResource_eval u resource _ _ f true true (hany _ (by decide))
      (hany _ (by decide))]
    simp

theorem moderator_admin_edit_any_witness :
    canEditResource (some ⟨some "moderator", some "u1", none⟩) none
      PERMISSIONS.EDIT_OWN_FORUM PERMISSIONS.EDIT_ANY_FORUM none = .ok true :=
  (moderator_admin_edit_any ⟨some "moderator", some "u1", none⟩ none none (Or.inl rfl)).1

/-! ## Bare and nested owner ids -/

/-- C23: for every identity and every non-empty string `x`, `ownsResource` on
a resource whose `createdBy` is the bare id `x` equals `ownsResource` on a
resource whose `createdBy` is an object with `_id` equal to `x`, and both are
true iff the identity is present and its resolved id (`_id`, else `id`)
equals `x`. -/
theorem ownsResource_bare_eq_nested (user : Option User) (x : String) (hx : x ≠ "") :
    ownsResource user (some [("createdBy", OwnerValue.bare x)]) none =
      ownsResource user (some [("createdBy", OwnerValue.nested (some x))]) none ∧
    (ownsResource user (some [("createdBy", OwnerValue.bare x)]) none = true ↔
      ∃ u, user = some u ∧ jsOr u._id u.id = some x) := by
  cases user with
  | none => simp [ownsResource]
  | some u =>
    simp [ownsResource, getProperty, getOwn, ownerNestedId, ownerToString, jsOr, truthy, hx]

theorem ownsResource_bare_eq_nested_witness :
    ownsResource (some ⟨some "user", some "A", none⟩)
        (some [("createdBy", OwnerValue.bare "A")]) none =
      ownsResource (some ⟨some "user", some "A", none⟩)
        (some [("createdBy", OwnerValue.nested (some "A"))]) none ∧
    (ownsResource (some ⟨some "user", some "A", none⟩)
        (some [("createdBy", OwnerValue.bare "A")]) none = true ↔
      ∃ u, some (⟨some "user", some "A", none⟩ : User) = some u ∧ jsOr u._id u.id = some "A") :=
  ownsResource_bare_eq_nested (some ⟨some "user", some "A", none⟩) "A" (by decide)

theorem authorize_authenticated (jwtVerify : String → Option Middleware.Payload)
    (pathname token : String) (payload : Middleware.Payload)
    (hpublic : isPublicRoute pathname = false) (hne : token ≠ "")
    (hverify : jwtVerify token = some payload) :
    Middleware.authorize jwtVerify ⟨pathname, some token⟩ =
      ⟨true, false, none, some payload⟩ := by
  simp [Middleware.authorize, hpublic, truthy, hne, hverify]

/-! ## Request gate -/

/-- C24, as stated, fails: a request to the non-public path `/api/users`
whose token fails verification is rejected with status 403, not 401. -/
theorem middleware_invalid_token_403 :
    isPublicRoute "/api/users" = false ∧
    (Middleware.authorize (fun _ => none) ⟨"/api/users", some "expired"⟩).authorized = false ∧
    (Middleware.authorize (fun _ => none) ⟨"/api/users", some "expired"⟩).user = none ∧
    Middleware.middleware (fun _ => none) ⟨"/api/users", some "expired"⟩ =
      .json 403 "Access denied" := by
  decide

/-- C24, amended: for every request to a non-public path for which
`authorize` yields no authenticated identity, the middleware, when the path
starts with `/api/`, rejects with status 401 if no access token is presented
(absent or empty cookie) and with status 403 if the token fails verification;
otherwise it redirects to `/login` with the original path in the `redirect`
query parameter. -/
theorem middleware_unauthenticated (jwtVerify : String → Option Middleware.Payload)
    (request : Middleware.Request)
    (hpublic : isPublicRoute request.pathname = false)
    (hno : truthy request.accessToken = false ∨
      ∃ token, request.accessToken = some token ∧ token ≠ "" ∧ jwtVerify token = none) :
    (Middleware.authorize jwtVerify request).authorized = false ∧
    (Middleware.authorize jwtVerify request).user = none ∧
    (startsWith request.pathname "/api/" = true → truthy request.accessToken = false →
      Middleware.middleware jwtVerify request = .json 401 "Access denied") ∧
    (startsWith request.pathname "/api/" = true → truthy request.accessToken = true →
      Middleware.middleware jwtVerify request = .json 403 "Access denied") ∧
    (startsWith request.pathname "/api/" = false →
      Middleware.middleware jwtVerify request =
        .redirect "/login" [("redirect", request.pathname)]) := by
  obtain ⟨pathname, accessToken⟩ := request
  simp only at hpublic hno
  rcases hno with hno | ⟨token, htoken, hne, hverify⟩
  · cases accessToken with
    | none =>
      refine ⟨?_, ?_, ?_, ?_, ?_⟩ <;>
        simp [Middleware.middleware, Middleware.authorize, hpublic, truthy]
    | some token =>
      refine ⟨?_, ?_, ?_, ?_, ?_⟩ <;>
        simp_all [Middleware.middleware, Middleware.authorize, truthy]
  · subst htoken
    refine ⟨?_, ?_, ?_, ?_, ?_⟩ <;>
      simp_all [Middleware.middleware, Middleware.authorize, truthy]

theorem middleware_unauthenticated_witness :
    (Middleware.authorize (fun _ => none) ⟨"/admin/settings", none⟩).authorized = false ∧
    (Middleware.authorize (fun _ => none) ⟨"/admin/settings", none⟩).user = none ∧
    (startsWith "/admin/settings" "/api/" = true → truthy (none : Option String) = false →
      Middleware.middleware (fun _ => none) ⟨"/admin/settings", none⟩ =
        .json 401 "Access denied") ∧
    (startsWith "/admin/settings" "/api/" = true → truthy (none : Option String) = true →
      Middleware.middleware (fun _ => none) ⟨"/admin/settings", none⟩ =
        .json 403 "Access denied") ∧
    (startsWith "/admin/settings" "/api/" = false →
      Middleware.middleware (fun _ => none) ⟨"/admin/settings", none⟩ =
        .redirect "/login" [("redirect", "/admin/settings")]) :=
  middleware_unauthenticated (fun _ => none) ⟨"/admin/settings", none⟩ (by decide)
    (Or.inl (by decide))

/-- C25: for every authenticated identity and non-public path on which
`canAccessRoute(identity, path, ROUTE_CONFIG)` is false, the middleware
rejects with status 403 when the path starts with `/api/` and otherwise
redirects to `/forums`; in neither case is the request forwarded. -/
theorem middleware_forbidden (jwtVerify : String → Option Middleware.Payload)
    (pathname token : String) (payload : Middleware.Payload)
    (hpublic : isPublicRoute pathname = false) (hne : token ≠ "")
    (hverify : jwtVerify token = some payload)
    (hdeny : canAccessRoute (some payload.toUser) pathname (some ROUTE_CONFIG) = .ok false) :
    (startsWith pathname "/api/" = true →
      Middleware.middleware jwtVerify ⟨pathname, some token⟩ = .json 403 "Forbidden") ∧
    (startsWith pathname "/api/" = false →
      Middleware.middleware jwtVerify ⟨pathname, some token⟩ = .redirect "/forums" []) ∧
    (∀ headers, Middleware.middleware jwtVerify ⟨pathname, some token⟩ ≠ .next headers) := by
  have hauth := authorize_authenticated jwtVerify pathname token payload hpublic hne hverify
  have hmw : Middleware.middleware jwtVerify ⟨pathname, some token⟩ =
      if startsWith pathname "/api/" then .json 403 "Forbidden"
      else .redirect "/forums" [] := by
    simp [Middleware.middleware, hauth, hdeny]
  refine ⟨?_, ?_, ?_⟩
  · intro h
    rw [hmw, if_pos h]
  · intro h
    rw [hmw]
    simp [h]
  · intro headers
    rw [hmw]
    split <;> simp

theorem middleware_forbidden_witness :
    (startsWith "/admin/settings" "/api/" = true →
      Middleware.middleware (fun _ => some ⟨⟨some "user", some "u1", none⟩, some "alice"⟩)
        ⟨"/admin/settings", some "token"⟩ = .json 403 "Forbidden") ∧
    (startsWith "/admin/settings" "/api/" = false →
      Middleware.middleware (fun _ => some ⟨⟨some "user", some "u1", none⟩, some "alice"⟩)
        ⟨"/admin/settings", some "token"⟩ = .redirect "/forums" []) ∧
    (∀ headers,
      Middleware.middleware (fun _ => some ⟨⟨some "user", some "u1", none⟩, some "alice"⟩)
        ⟨"/admin/settings", some "token"⟩ ≠ .next headers) :=
  middleware_forbidden (fun _ => some ⟨⟨some "user", some "u1", none⟩, some "alice"⟩)
    "/admin/settings" "token" ⟨⟨some "user", some "u1", none⟩, some "alice"⟩
    (by decide) (by decide) rfl (by decide)

theorem middleware_allowed_with_id (jwtVerify : String → Option Middleware.Payload)
    (pathname token id : String) (payload : Middleware.Payload)
    (hpublic : isPublicRoute pathname = false) (hne : token ≠ "")
    (hverify : jwtVerify token = some payload)
    (hallow : canAccessRoute (some payload.toUser) pathname (some ROUTE_CONFIG) = .ok true)
    (hid : payload._id = some id) :
    Middleware.middleware jwtVerify ⟨pathname, some token⟩ =
      .next [("x-user-id", some id), ("x-user-role", payload.role),
        ("x-user-username", payload.username)] := by
  have hauth := authorize_authenticated jwtVerify pathname token payload hpublic hne hverify
  simp [Middleware.middleware, hauth, hallow, hid]

/-- C26, failing input: an authenticated identity that carries its id in
`id` and has no `_id`. On `/admin` (role `admin`) and on `/api/forums`
`canAccessRoute` is true, yet `user._id.toString()` throws, the `catch` block
runs, and the middleware redirects to `/login`, respectively answers 500,
instead of forwarding. The same identity with an `_id` is forwarded with the
three headers. -/
theorem middleware_identity_without_underscore_id :
    canAccessRoute (some ⟨some "admin", none, some "u1"⟩) "/admin" (some ROUTE_CONFIG) =
      .ok true ∧
    Middleware.middleware (fun _ => some ⟨⟨some "admin", none, some "u1"⟩, some "root"⟩)
      ⟨"/admin", some "token"⟩ = .redirect "/login" [] ∧
    canAccessRoute (some ⟨some "admin", none, some "u1"⟩) "/api/forums" (some ROUTE_CONFIG) =
      .ok true ∧
    Middleware.middleware (fun _ => some ⟨⟨some "admin", none, some "u1"⟩, some "root"⟩)
      ⟨"/api/forums", some "token"⟩ = .json 500 "Internal server error" ∧
    Middleware.middleware (fun _ => some ⟨⟨some "admin", some "u1", none⟩, some "root"⟩)
      ⟨"/admin", some "token"⟩ =
      .next [("x-user-id", some "u1"), ("x-user-role", some "admin"),
        ("x-user-username", some "root")] := by
  decide

/-- C27: `isPublicRoute(path)` is true iff some entry of `PUBLIC_ROUTES` is a
string-prefix of `path`, and for every such path the middleware forwards the
request with no header set, whatever token is or is not presented and
whatever its verification yields. -/
theorem middleware_public (pathname : String) :
    (isPublicRoute pathname = true ↔ ∃ r ∈ PUBLIC_ROUTES, startsWith pathname r = true) ∧
    (isPublicRoute pathname = true →
      ∀ (jwtVerify : String → Option Middleware.Payload) (accessToken : Option String),
        Middleware.middleware jwtVerify ⟨pathname, accessToken⟩ = .next []) := by
  constructor
  · simp [isPublicRoute]
  · intro h jwtVerify accessToken
    simp [Middleware.middleware, Middleware.authorize, h]

theorem middleware_public_witness :
    Middleware.middleware (fun _ => none) ⟨"/api/auth/login", some "garbage"⟩ = .next [] :=
  (middleware_public "/api/auth/login").2 (by decide) (fun _ => none) (some "garbage")

open RoleRoute in
theorem findById_findByIdAndUpdate (users : List RoleRoute.StoredUser) (id newRole : String)
    (target : RoleRoute.StoredUser) (h : findById users id = some target) :
    findById (findByIdAndUpdate users id newRole) id =
      some ⟨target._id, target.username, some newRole⟩ := by
  induction users with
  | nil => simp [findById] at h
  | cons u rest ih =>
    by_cases hu : u._id = id
    · simp [findById, hu] at h
      subst h
      simp [findById, findByIdAndUpdate, hu]
    · simp [findById, hu] at h
      simp [findById, findByIdAndUpdate, hu, ih h]

open RoleRoute in
theorem checks_outcome (db : RoleRoute.Database) (req : RoleRoute.Parsed) :
    (∃ status, status ≠ 200 ∧ checks db req = (status, db)) ∨
    (∃ a acting r target, req.actingUserId = some a ∧ a ≠ "" ∧
      findById db.users a = some acting ∧
      hasPermission (some ⟨acting.role, some acting._id, none⟩)
        PERMISSIONS.CHANGE_USER_ROLE = .ok true ∧
      req.newRole = some r ∧ r ∈ ["user", "moderator", "admin"] ∧
      findById db.users req.id = some target ∧ acting._id ≠ target._id ∧
      checks db req = (200, ⟨findByIdAndUpdate db.users req.id r,
        db.securityLogs ++ [⟨"ROLE_UPDATE", req.actingUsername, target._id,
          target.username, target.role, r⟩]⟩)) := by
  obtain ⟨id, newRole, actingUserId, actingUsername⟩ := req
  cases actingUserId with
  | none => exact Or.inl ⟨401, by decide, by simp [checks]⟩
  | some a =>
    by_cases ha : a = ""
    · exact Or.inl ⟨401, by decide, by simp [checks, truthy, ha]⟩
    · have hta : truthy (some a) = true := by simp [truthy, ha]
      cases hf : findById db.users a with
      | none => exact Or.inl ⟨401, by decide, by simp [checks, hta, hf]⟩
      | some acting =>
        cases hp : hasPermission (some ⟨acting.role, some acting._id, none⟩)
            PERMISSIONS.CHANGE_USER_ROLE with
        | error e => exact Or.inl ⟨500, by decide, by simp [checks, hta, hf, hp]⟩
        | ok b =>
          cases b with
          | false => exact Or.inl ⟨403, by decide, by simp [checks, hta, hf, hp]⟩
          | true =>
            cases newRole with
            | none => exact Or.inl ⟨400, by decide, by simp [checks, hta, hf, hp]⟩
            | some r =>
              cases hc : List.contains ["user", "moderator", "admin"] r with
              | false =>
                exact Or.inl ⟨400, by decide,
                  by simp only [checks, hta, hf, hp, hc, Bool.not_true, if_true]; rfl⟩
              | true =>
                have hv : r ∈ ["user", "moderator", "admin"] :=
                  (contains_eq_true_iff _ r).mp hc
                cases ht : findById db.users id with
                | none =>
                  exact Or.inl ⟨404, by decide,
                    by simp only [checks, hta, hf, hp, hc, ht, Bool.not_true]; rfl⟩
                | some target =>
                  by_cases hself : acting._id = target._id
                  · exact Or.inl ⟨400, by decide,
                      by simp only [checks, hta, hf, hp, hc, ht, Bool.not_true, if_pos hself]; rfl⟩
                  · exact Or.inr ⟨a, acting, r, target, rfl, ha, hf, hp, rfl, hv, rfl, hself,
                      by simp only [checks, hta, hf, hp, hc, ht, Bool.not_true, if_neg hself]; rfl⟩

/-! ## Role-change handler -/

open RoleRoute in
theorem checks_spec (db : RoleRoute.Database) (req : RoleRoute.Parsed) :
    ((checks db req).2 ≠ db →
      ∃ a acting r target, req.actingUserId = some a ∧ a ≠ "" ∧
        findById db.users a = some acting ∧
        hasPermission (some ⟨acting.role, some acting._id, none⟩)
          PERMISSIONS.CHANGE_USER_ROLE = .ok true ∧
        req.newRole = some r ∧ r ∈ ["user", "moderator", "admin"] ∧
        findById db.users req.id = some target ∧ acting._id ≠ target._id ∧
        (checks db req).1 = 200 ∧
        findById (checks db req).2.users req.id =
          some ⟨target._id, target.username, some r⟩ ∧
        (checks db req).2.securityLogs = db.securityLogs ++
          [⟨"ROLE_UPDATE", req.actingUsername, target._id, target.username, target.role, r⟩]) ∧
    (truthy req.actingUserId = false → checks db req = (401, db)) ∧
    (∀ a, req.actingUserId = some a → a ≠ "" → findById db.users a = none →
      checks db req = (401, db)) ∧
    (∀ a acting, req.actingUserId = some a → a ≠ "" → findById db.users a = some acting →
      hasPermission (some ⟨acting.role, some acting._id, none⟩)
        PERMISSIONS.CHANGE_USER_ROLE = .ok false →
      checks db req = (403, db)) ∧
    (∀ a acting, req.actingUserId = some a → a ≠ "" → findById db.users a = some acting →
      hasPermission (some ⟨acting.role, some acting._id, none⟩)
        PERMISSIONS.CHANGE_USER_ROLE = .ok true →
      (∀ r, req.newRole = some r → r ∉ ["user", "moderator", "admin"]) →
      checks db req = (400, db)) ∧
    (∀ a acting r, req.actingUserId = some a → a ≠ "" → findById db.users a = some acting →
      hasPermission (some ⟨acting.role, some acting._id, none⟩)
        PERMISSIONS.CHANGE_USER_ROLE = .ok true →
      req.newRole = some r → r ∈ ["user", "moderator", "admin"] →
      findById db.users req.id = none →
      checks db req = (404, db)) ∧
    (∀ a acting r target, req.actingUserId = some a → a ≠ "" →
      findById db.users a = some acting →
      hasPermission (some ⟨acting.role, some acting._id, none⟩)
        PERMISSIONS.CHANGE_USER_ROLE = .ok true →
      req.newRole = some r → r ∈ ["user", "moderator", "admin"] →
      findById db.users req.id = some target → acting._id = target._id →
      checks db req = (400, db)) ∧
    ((checks db req).1 ≠ 200 → (checks db req).2 = db) := by
  refine ⟨?_, ?_, ?_, ?_, ?_, ?_, ?_, ?_⟩
  · intro hchg
    rcases checks_outcome db req with ⟨status, _, hrej⟩ |
      ⟨a, acting, r, target, h1, h2, h3, h4, h5, h6, h7, h8, h9⟩
    · rw [hrej] at hchg
      exact absurd rfl hchg
    · refine ⟨a, acting, r, target, h1, h2, h3, h4, h5, h6, h7, h8, ?_, ?_, ?_⟩
      · rw [h9]
      · rw [h9]
        exact findById_findByIdAndUpdate db.users req.id r target h7
      · rw [h9]
  · intro h
    obtain ⟨id, newRole, actingUserId, actingUsername⟩ := req
    cases actingUserId with
    | none => simp [checks]
    | some a =>
      simp only at h
      simp [checks, h]
  · intro a h1 h2 h3
    obtain ⟨id, newRole, actingUserId, actingUsername⟩ := req
    simp only at h1
    subst h1
    have hta : truthy (some a) = true := by simp [truthy, h2]
    simp [checks, hta, h3]
  · intro a acting h1 h2 h3 h4
    obtain ⟨id, newRole, actingUserId, actingUsername⟩ := req
    simp only at h1
    subst h1
    have hta : truthy (some a) = true := by simp [truthy, h2]
    simp [checks, hta, h3, h4]
  · intro a acting h1 h2 h3 h4 h5
    obtain ⟨id, newRole, actingUserId, actingUsername⟩ := req
    simp only at h1 h5
    subst h1
    have hta : truthy (some a) = true := by simp [truthy, h2]
    cases newRole with
    | none => simp [checks, hta, h3, h4]
    | some r =>
      have hc : List.contains ["user", "moderator", "admin"] r = false := by
        cases hc : List.contains ["user", "moderator", "admin"] r with
        | false => rfl
        | true => exact absurd ((contains_eq_true_iff _ r).mp hc) (h5 r rfl)
      simp only [checks, hta, h3, h4, hc, Bool.not_true, if_true]
      rfl
  · intro a acting r h1 h2 h3 h4 h5 h6 h7
    obtain ⟨id, newRole, actingUserId, actingUsername⟩ := req
    simp only at h1 h5 h7
    subst h1
    subst h5
    have hta : truthy (some a) = true := by simp [truthy, h2]
    have hc := (contains_eq_true_iff _ r).mpr h6
    simp only [checks, hta, h3, h4, hc, h7, Bool.not_true]
    rfl
  · intro a acting r target h1 h2 h3 h4 h5 h6 h7 h8
    obtain ⟨id, newRole, actingUserId, actingUsername⟩ := req
    simp only at h1 h5 h7
    subst h1
    subst h5
    have hta : truthy (some a) = true := by simp [truthy, h2]
    have hc := (contains_eq_true_iff _ r).mpr h6
    simp only [checks, hta, h3, h4, hc, h7, Bool.not_true, if_pos h8]
    rfl
  · intro hstatus
    rcases checks_outcome db req with ⟨status, _, hrej⟩ |
      ⟨a, acting, r, target, _, _, _, _, _, _, _, _, h9⟩
    · rw [hrej]
    · rw [h9] at hstatus
      exact absurd rfl hstatus

/-! ## Role-change handler -/

/-- C28, as stated, fails: the checks are not the first thing the handler
does. A request without the header `x-user-id` whose body is not JSON is
answered 500, not 401, and so is every request when the database connection
fails, whatever the checks would say; the store and the log stay unchanged. -/
theorem RoleRoute_PATCH_500_before_checks :
    RoleRoute.PATCH true ⟨[⟨"a1", "root", some "admin"⟩, ⟨"u1", "alice", some "user"⟩], []⟩
      ⟨some "u1", none, none, none⟩ =
      (500, ⟨[⟨"a1", "root", some "admin"⟩, ⟨"u1", "alice", some "user"⟩], []⟩) ∧
    RoleRoute.PATCH true ⟨[⟨"a1", "root", some "admin"⟩, ⟨"u1", "alice", some "user"⟩], []⟩
      ⟨some "u1", some (some "moderator"), none, none⟩ =
      (401, ⟨[⟨"a1", "root", some "admin"⟩, ⟨"u1", "alice", some "user"⟩], []⟩) ∧
    RoleRoute.PATCH false ⟨[⟨"a1", "root", some "admin"⟩, ⟨"u1", "alice", some "user"⟩], []⟩
      ⟨some "u1", some (some "moderator"), some "u1", some "alice"⟩ =
      (500, ⟨[⟨"a1", "root", some "admin"⟩, ⟨"u1", "alice", some "user"⟩], []⟩) ∧
    RoleRoute.PATCH true ⟨[⟨"a1", "root", some "admin"⟩, ⟨"u1", "alice", some "user"⟩], []⟩
      ⟨some "u1", some (some "moderator"), some "u1", some "alice"⟩ =
      (403, ⟨[⟨"a1", "root", some "admin"⟩, ⟨"u1", "alice", some "user"⟩], []⟩) := by
  decide

/-- C28, amended: the handler `PATCH /api/users/[id]/role` over an explicit
user store and audit log. The store or the log differs afterwards only when
the acting user is identified and found, holds `change_user_role`, the new
role is one of `user`, `moderator`, `admin`, the target exists and is not the
acting user; then the response is 200, the target's stored role is the new
role and one audit entry is appended. Once the database is connected and the
route parameter and the body are read, the checks fail in that order with
statuses 401 (not identified), 401 (not found), 403, 400, 404 and 400; a
failed connection, an unreadable parameter or an unreadable body is answered
500 before any check; and every response other than 200 leaves the store and
the log unchanged. -/
theorem RoleRoute_PATCH_spec (connected : Bool) (db : RoleRoute.Database)
    (req : RoleRoute.Request) :
    ((RoleRoute.PATCH connected db req).2 ≠ db →
      connected = true ∧
      ∃ id a acting r target, req.params = some id ∧ req.body = some (some r) ∧
        req.actingUserId = some a ∧ a ≠ "" ∧
        RoleRoute.findById db.users a = some acting ∧
        hasPermission (some ⟨acting.role, some acting._id, none⟩)
          PERMISSIONS.CHANGE_USER_ROLE = .ok true ∧
        r ∈ ["user", "moderator", "admin"] ∧
        RoleRoute.findById db.users id = some target ∧ acting._id ≠ target._id ∧
        (RoleRoute.PATCH connected db req).1 = 200 ∧
        RoleRoute.findById (RoleRoute.PATCH connected db req).2.users id =
          some ⟨target._id, target.username, some r⟩ ∧
        (RoleRoute.PATCH connected db req).2.securityLogs = db.securityLogs ++
          [⟨"ROLE_UPDATE", req.actingUsername, target._id, target.username, target.role, r⟩]) ∧
    (connected = false → RoleRoute.PATCH connected db req = (500, db)) ∧
    (req.params = none → RoleRoute.PATCH connected db req = (500, db)) ∧
    (req.body = none → RoleRoute.PATCH connected db req = (500, db)) ∧
    (∀ id newRole, connected = true → req.params = some id → req.body = some newRole →
      truthy req.actingUserId = false → RoleRoute.PATCH connected db req = (401, db)) ∧
    (∀ id newRole a, connected = true → req.params = some id → req.body = some newRole →
      req.actingUserId = some a → a ≠ "" → RoleRoute.findById db.users a = none →
      RoleRoute.PATCH connected db req = (401, db)) ∧
    (∀ id newRole a acting, connected = true → req.params = some id →
      req.body = some newRole →
      req.actingUserId = some a → a ≠ "" → RoleRoute.findById db.users a = some acting →
      hasPermission (some ⟨acting.role, some acting._id, none⟩)
        PERMISSIONS.CHANGE_USER_ROLE = .ok false →
      RoleRoute.PATCH connected db req = (403, db)) ∧
    (∀ id newRole a acting, connected = true → req.params = some id →
      req.body = some newRole →
      req.actingUserId = some a → a ≠ "" → RoleRoute.findById db.users a = some acting →
      hasPermission (some ⟨acting.role, some acting._id, none⟩)
        PERMISSIONS.CHANGE_USER_ROLE = .ok true →
      (∀ r, newRole = some r → r ∉ ["user", "moderator", "admin"]) →
      RoleRoute.PATCH connected db req = (400, db)) ∧
    (∀ id a acting r, connected = true → req.params = some id →
      req.body = some (some r) →
      req.actingUserId = some a → a ≠ "" → RoleRoute.findById db.users a = some acting →
      hasPermission (some ⟨acting.role, some acting._id, none⟩)
        PERMISSIONS.CHANGE_USER_ROLE = .ok true →
      r ∈ ["user", "moderator", "admin"] →
      RoleRoute.findById db.users id = none →
      RoleRoute.PATCH connected db req = (404, db)) ∧
    (∀ id a acting r target, connected = true → req.params = some id →
      req.body = some (some r) →
      req.actingUserId = some a → a ≠ "" → RoleRoute.findById db.users a = some acting →
      hasPermission (some ⟨acting.role, some acting._id, none⟩)
        PERMISSIONS.CHANGE_USER_ROLE = .ok true →
      r ∈ ["user", "moderator", "admin"] →
      RoleRoute.findById db.users id = some target → acting._id = target._id →
      RoleRoute.PATCH connected db req = (400, db)) ∧
    ((RoleRoute.PATCH connected db req).1 ≠ 200 →
      (RoleRoute.PATCH connected db req).2 = db) := by
  obtain ⟨params, body, actingUserId, actingUsername⟩ := req
  have hrun : ∀ id newRole, connected = true → params = some id → body = some newRole →
      RoleRoute.PATCH connected db ⟨params, body, actingUserId, actingUsername⟩ =
        RoleRoute.checks db ⟨id, newRole, actingUserId, actingUsername⟩ := by
    intro id newRole hc hp hb
    subst hc
    subst hp
    subst hb
    rfl
  have hoff : connected = false →
      RoleRoute.PATCH connected db ⟨params, body, actingUserId, actingUsername⟩ =
        (500, db) := by
    intro hc
    subst hc
    rfl
  have hparams : params = none →
      RoleRoute.PATCH connected db ⟨params, body, actingUserId, actingUsername⟩ =
        (500, db) := by
    intro hp
    subst hp
    cases connected <;> rfl
  have hbody : body = none →
      RoleRoute.PATCH connected db ⟨params, body, actingUserId, actingUsername⟩ =
        (500, db) := by
    intro hb
    subst hb
    cases connected <;> cases params <;> rfl
  refine ⟨?_, hoff, hparams, hbody, ?_, ?_, ?_, ?_, ?_, ?_, ?_⟩
  · intro hchg
    cases connected with
    | false => exact absurd (by rw [hoff rfl]) hchg
    | true =>
      cases params with
      | none => exact absurd (by rw [hparams rfl]) hchg
      | some id =>
        cases body with
        | none => exact absurd (by rw [hbody rfl]) hchg
        | some newRole =>
          rw [hrun id newRole rfl rfl rfl] at hchg ⊢
          obtain ⟨a, acting, r, target, h1, h2, h3, h4, h5, h6, h7, h8, h9, h10, h11⟩ :=
            (checks_spec db ⟨id, newRole, actingUserId, actingUsername⟩).1 hchg
          simp only at h1 h5 h7 h10 h11
          subst h5
          exact ⟨rfl, id, a, acting, r, target, rfl, rfl, h1, h2, h3, h4, h6, h7, h8, h9,
            h10, h11⟩
  · intro id newRole hc hp hb h
    rw [hrun id newRole hc hp hb]
    exact (checks_spec db ⟨id, newRole, actingUserId, actingUsername⟩).2.1 h
  · intro id newRole a hc hp hb h1 h2 h3
    rw [hrun id newRole hc hp hb]
    exact (checks_spec db ⟨id, newRole, actingUserId, actingUsername⟩).2.2.1 a h1 h2 h3
  · intro id newRole a acting hc hp hb h1 h2 h3 h4
    rw [hrun id newRole hc hp hb]
    exact (checks_spec db ⟨id, newRole, actingUserId, actingUsername⟩).2.2.2.1 a acting
      h1 h2 h3 h4
  · intro id newRole a acting hc hp hb h1 h2 h3 h4 h5
    rw [hrun id newRole hc hp hb]
    exact (checks_spec db ⟨id, newRole, actingUserId, actingUsername⟩).2.2.2.2.1 a acting
      h1 h2 h3 h4 h5
  · intro id a acting r hc hp hb h1 h2 h3 h4 h5 h6
    rw [hrun id (some r) hc hp hb]
    exact (checks_spec db ⟨id, some r, actingUserId, actingUsername⟩).2.2.2.2.2.1 a acting r
      h1 h2 h3 h4 rfl h5 h6
  · intro id a acting r target hc hp hb h1 h2 h3 h4 h5 h6 h7
    rw [hrun id (some r) hc hp hb]
    exact (checks_spec db ⟨id, some r, actingUserId, actingUsername⟩).2.2.2.2.2.2.1 a acting r
      target h1 h2 h3 h4 rfl h5 h6 h7
  · intro hstatus
    cases connected with
    | false => rw [hoff rfl]
    | true =>
      cases params with
      | none => rw [hparams rfl]
      | some id =>
        cases body with
        | none => rw [hbody rfl]
        | some newRole =>
          rw [hrun id newRole rfl rfl rfl] at hstatus ⊢
          exact (checks_spec db ⟨id, newRole, actingUserId,
            actingUsername⟩).2.2.2.2.2.2.2 hstatus

theorem RoleRoute_PATCH_spec_witness :
    RoleRoute.PATCH true
      ⟨[⟨"a1", "root", some "admin"⟩, ⟨"u1", "alice", some "user"⟩], []⟩
      ⟨some "u1", some (some "moderator"), some "u1", some "alice"⟩ =
      (403, ⟨[⟨"a1", "root", some "admin"⟩, ⟨"u1", "alice", some "user"⟩], []⟩) :=
  (RoleRoute_PATCH_spec true
    ⟨[⟨"a1", "root", some "admin"⟩, ⟨"u1", "alice", some "user"⟩], []⟩
    ⟨some "u1", some (some "moderator"), some "u1", some "alice"⟩).2.2.2.2.2.2.1
    "u1" (some "moderator") "u1" ⟨"u1", "alice", some "user"⟩
    rfl rfl rfl rfl (by decide) (by decide) (by decide)

open RoleRoute in
theorem RoleRoute_PATCH_example :
    PATCH true ⟨[⟨"a1", "root", some "admin"⟩, ⟨"u1", "alice", some "user"⟩], []⟩
      ⟨some "u1", some (some "moderator"), some "a1", some "root"⟩ =
      (200, ⟨[⟨"a1", "root", some "admin"⟩, ⟨"u1", "alice", some "moderator"⟩],
        [⟨"ROLE_UPDATE", some "root", "u1", "alice", some "user", "moderator"⟩]⟩) ∧
    PATCH true ⟨[⟨"a1", "root", some "admin"⟩, ⟨"u1", "alice", some "user"⟩], []⟩
      ⟨some "a1", some (some "user"), some "a1", some "root"⟩ =
      (400, ⟨[⟨"a1", "root", some "admin"⟩, ⟨"u1", "alice", some "user"⟩], []⟩) ∧
    PATCH true ⟨[⟨"a1", "root", some "admin"⟩, ⟨"u1", "alice", some "user"⟩], []⟩
      ⟨none, some (some "moderator"), some "a1", some "root"⟩ =
      (500, ⟨[⟨"a1", "root", some "admin"⟩, ⟨"u1", "alice", some "user"⟩], []⟩) := by
  decide

/-! ## Requirement shapes -/

/-- C29, as stated, fails: the empty path is matched by the empty prefix, the
entry requires the role `admin`, which the identity does not have, yet
`canAccessRoute` returns true because of its guard on an empty path. -/
theorem canAccessRoute_empty_path :
    startsWith "" "" = true ∧
    Requirements.exactlyOneShape ⟨some (.single "admin"), none, none⟩ = true ∧
    hasRole (some ⟨some "user", some "u1", none⟩) (some "admin") = false ∧
    canAccessRoute (some ⟨some "user", some "u1", none⟩) ""
      (some [("", ⟨some (.single "admin"), none, none⟩)]) = .ok true := by
  decide

/-- C29, amended: for every route table, every identity and every non-empty
path, when the first entry whose prefix matches the path carries exactly one
non-empty requirement, `canAccessRoute` equals `hasRole(identity, role)` for
a string role, `hasAnyRole(identity, role)` for a role list,
`hasMinimumRole(identity, minimumRole)` for a minimum role and
`hasPermission(identity, permission)` for a permission. -/
theorem canAccessRoute_by_shape (user : Option User) (route : String)
    (pre post : List (String × Requirements)) (pattern : String)
    (requirements : Requirements)
    (hroute : route ≠ "")
    (hpre : ∀ e ∈ pre, startsWith route e.1 = false)
    (hmatch : startsWith route pattern = true)
    (hshape : requirements.exactlyOneShape = true) :
    (∀ r, requirements.role = some (.single r) →
      canAccessRoute user route (some (pre ++ (pattern, requirements) :: post)) =
        .ok (hasRole user (some r))) ∧
    (∀ rs, requirements.role = some (.anyOf rs) →
      canAccessRoute user route (some (pre ++ (pattern, requirements) :: post)) =
        .ok (hasAnyRole user (some (.anyOf rs)))) ∧
    (∀ m, requirements.minimumRole = some m →
      canAccessRoute user route (some (pre ++ (pattern, requirements) :: post)) =
        .ok (hasMinimumRole user (some m))) ∧
    (∀ p, requirements.permission = some p →
      canAccessRoute user route (some (pre ++ (pattern, requirements) :: post)) =
        hasPermission user p) := by
  obtain ⟨role, permission, minimumRole⟩ := requirements
  have hscan : ∀ result, checkRequirements user ⟨role, permission, minimumRole⟩ = some result →
      canAccessRoute user route (some (pre ++ (pattern, ⟨role, permission, minimumRole⟩) :: post)) =
        result := by
    intro result hres
    simp only [canAccessRoute, if_neg hroute]
    exact scanRoutes_at user route pre post pattern _ result hpre hmatch hres
  refine ⟨?_, ?_, ?_, ?_⟩
  · intro r hr
    simp only at hr
    subst hr
    cases permission <;> cases minimumRole <;>
      simp [Requirements.exactlyOneShape] at hshape
    exact hscan _ (by simp [checkRequirements, RoleRequirement.truthy, hshape])
  · intro rs hr
    simp only at hr
    subst hr
    cases permission <;> cases minimumRole <;>
      simp [Requirements.exactlyOneShape] at hshape
    exact hscan _ (by simp [checkRequirements, RoleRequirement.truthy])
  · intro m hm
    simp only at hm
    subst hm
    cases role <;> cases permission <;>
      simp [Requirements.exactlyOneShape] at hshape
    exact hscan _ (by simp [checkRequirements, RoleRequirement.truthy, truthy, hshape])
  · intro p hp
    simp only at hp
    subst hp
    cases role <;> cases minimumRole <;>
      simp [Requirements.exactlyOneShape] at hshape
    exact hscan _ (by simp [checkRequirements, RoleRequirement.truthy, truthy, hshape])

theorem canAccessRoute_by_shape_witness :
    canAccessRoute (some ⟨some "user", some "u1", none⟩) "/reports/2024"
      (some ([("/admin", ⟨some (.single "admin"), none, none⟩)] ++
        ("/reports", ⟨none, some "view_reports", none⟩) ::
        [("/reports/2024", ⟨none, none, some "user"⟩)])) =
      hasPermission (some ⟨some "user", some "u1", none⟩) "view_reports" :=
  (canAccessRoute_by_shape (some ⟨some "user", some "u1", none⟩) "/reports/2024"
    [("/admin", ⟨some (.single "admin"), none, none⟩)]
    [("/reports/2024", ⟨none, none, some "user"⟩)] "/reports"
    ⟨none, some "view_reports", none⟩ (by decide) (by decide) (by decide) (by decide)).2.2.2
    "view_reports" rfl

/-- C30: `ROUTE_CONFIG` is well-formed: every entry carries exactly one of
the shapes `role`, `minimumRole`, `permission`, and every role it names,
single or in a list, satisfies `isValidRole`. -/
theorem ROUTE_CONFIG_well_formed :
    ∀ e ∈ ROUTE_CONFIG, e.2.exactlyOneShape = true ∧
      ∀ r ∈ e.2.namedRoles, isValidRole (some r) = true := by
  decide

theorem ROUTE_CONFIG_well_formed_witness :
    Requirements.exactlyOneShape ⟨some (.anyOf [ROLES.ADMIN, ROLES.MODERATOR]), none, none⟩ =
        true ∧
      ∀ r ∈ Requirements.namedRoles ⟨some (.anyOf [ROLES.ADMIN, ROLES.MODERATOR]), none, none⟩,
        isValidRole (some r) = true :=
  ROUTE_CONFIG_well_formed
    ("/moderator", ⟨some (.anyOf [ROLES.ADMIN, ROLES.MODERATOR]), none, none⟩) (by decide)

theorem checkRequirements_no_role (user : Option User) (requirements : Requirements)
    (hshape : requirements.exactlyOneShape = true)
    (hno : user = none ∨ ∃ u, user = some u ∧ truthy u.role = false) :
    checkRequirements user requirements = some (.ok false) := by
  obtain ⟨role, permission, minimumRole⟩ := requirements
  have h1 : ∀ r, hasRole user r = false := by
    intro r
    rcases hno with h | ⟨u, h, hr⟩ <;> subst h <;> simp [hasRole, *]
  have h2 : ∀ r, hasAnyRole user r = false := by
    intro r
    rcases hno with h | ⟨u, h, hr⟩ <;> subst h <;> simp [hasAnyRole, *]
  have h3 : ∀ m, hasMinimumRole user m = false := by
    intro m
    rcases hno with h | ⟨u, h, hr⟩ <;> subst h <;> simp [hasMinimumRole, *]
  have h4 : ∀ p, hasPermission user p = .ok false := by
    intro p
    rcases hno with h | ⟨u, h, hr⟩ <;> subst h <;> simp [hasPermission, *]
  cases role with
  | none =>
    cases permission with
    | none =>
      cases minimumRole with
      | none => simp [Requirements.exactlyOneShape] at hshape
      | some m =>
        simp [Requirements.exactlyOneShape] at hshape
        simp [checkRequirements, RoleRequirement.truthy, truthy, hshape, h3]
    | some p =>
      cases minimumRole with
      | none =>
        simp [Requirements.exactlyOneShape] at hshape
        simp [checkRequirements, RoleRequirement.truthy, truthy, hshape, h4]
      | some m => simp [Requirements.exactlyOneShape] at hshape
  | some r =>
    cases permission <;> cases minimumRole <;> cases r <;>
      simp [Requirements.exactlyOneShape] at hshape
    · simp [checkRequirements, RoleRequirement.truthy, hshape, h1]
    · simp [checkRequirements, RoleRequirement.truthy, h2]

theorem scanRoutes_no_role (user : Option User) (route : String)
    (entries : List (String × Requirements))
    (hwf : ∀ e ∈ entries, e.2.exactlyOneShape = true)
    (hmatch : ∃ e ∈ entries, startsWith route e.1 = true)
    (hno : user = none ∨ ∃ u, user = some u ∧ truthy u.role = false) :
    scanRoutes user route entries = .ok false := by
  induction entries with
  | nil =>
    obtain ⟨e, he, _⟩ := hmatch
    simp at he
  | cons e rest ih =>
    obtain ⟨pattern, requirements⟩ := e
    cases hm : startsWith route pattern with
    | true =>
      have hres := checkRequirements_no_role user requirements
        (hwf (pattern, requirements) (List.mem_cons_self _ _)) hno
      simp [scanRoutes, hm, hres]
    | false =>
      have hrest : ∃ e ∈ rest, startsWith route e.1 = true := by
        obtain ⟨e, he, hme⟩ := hmatch
        rcases List.mem_cons.mp he with h | h
        · subst h
          simp only at hme
          rw [hm] at hme
          exact absurd hme (by simp)
        · exact ⟨e, h, hme⟩
      simp [scanRoutes, hm, ih (fun e he => hwf e (List.mem_cons_of_mem _ he)) hrest]

/-! ## Identities without a role, and the scan -/

/-- C31, as stated, fails: the empty path is matched by the empty prefix of a
well-formed entry, yet an absent identity, and an identity without a role,
are let through, because `canAccessRoute` allows an empty path before it
looks at the table. -/
theorem canAccessRoute_absent_identity_empty_path :
    startsWith "" "" = true ∧
    Requirements.exactlyOneShape ⟨none, none, some "user"⟩ = true ∧
    canAccessRoute none "" (some [("", ⟨none, none, some "user"⟩)]) = .ok true ∧
    canAccessRoute (some ⟨none, some "u1", none⟩) ""
      (some [("", ⟨none, none, some "user"⟩)]) = .ok true := by
  decide

/-- C31, amended: for every route table whose entries each carry exactly one
non-empty requirement and every non-empty path matched by at least one
entry's prefix, `canAccessRoute` is false for an absent identity and for an
identity without a role (role absent or empty). -/
theorem canAccessRoute_denies_without_role (user : Option User) (route : String)
    (entries : List (String × Requirements))
    (hroute : route ≠ "")
    (hwf : ∀ e ∈ entries, e.2.exactlyOneShape = true)
    (hmatch : ∃ e ∈ entries, startsWith route e.1 = true)
    (hno : user = none ∨ ∃ u, user = some u ∧ truthy u.role = false) :
    canAccessRoute user route (some entries) = .ok false := by
  simp only [canAccessRoute, if_neg hroute]
  exact scanRoutes_no_role user route entries hwf hmatch hno

theorem canAccessRoute_denies_without_role_witness :
    canAccessRoute none "/api/forums/7" (some ROUTE_CONFIG) = .ok false :=
  canAccessRoute_denies_without_role none "/api/forums/7" ROUTE_CONFIG (by decide)
    (by decide) (by decide) (Or.inl rfl)

/-- C32: in the scan of `canAccessRoute`, a matching entry whose `role`,
`permission` and `minimumRole` are all absent or empty decides nothing and
the scan goes on with the later entries; the result is that of the first
matching entry with a non-empty requirement, or true if there is none; and
of several requirement fields only the first in the order `role`,
`permission`, `minimumRole` is evaluated. The scan is what `canAccessRoute`
returns for a present table and a non-empty path. -/
theorem scan_semantics (user : Option User) (route : String) :
    (∀ pattern requirements rest, requirements.isEmpty = true →
      checkRequirements user requirements = none ∧
      scanRoutes user route ((pattern, requirements) :: rest) = scanRoutes user route rest) ∧
    (∀ pre pattern requirements post,
      (∀ e ∈ pre, startsWith route e.1 = false ∨ e.2.isEmpty = true) →
      startsWith route pattern = true → requirements.isEmpty = false →
      ∃ result, checkRequirements user requirements = some result ∧
        scanRoutes user route (pre ++ (pattern, requirements) :: post) = result) ∧
    (∀ entries : List (String × Requirements),
      (∀ e ∈ entries, startsWith route e.1 = false ∨ e.2.isEmpty = true) →
      scanRoutes user route entries = .ok true) ∧
    (∀ entries : List (String × Requirements), route ≠ "" →
      canAccessRoute user route (some entries) = scanRoutes user route entries) ∧
    (∀ r permission minimumRole, RoleRequirement.truthy (some r) = true →
      checkRequirements user ⟨some r, permission, minimumRole⟩ =
        checkRequirements user ⟨some r, none, none⟩) ∧
    (∀ role p minimumRole, RoleRequirement.truthy role = false → p ≠ "" →
      checkRequirements user ⟨role, some p, minimumRole⟩ = some (hasPermission user p)) := by
  have hempty : ∀ requirements : Requirements, requirements.isEmpty = true →
      checkRequirements user requirements = none := by
    intro requirements h
    obtain ⟨role, permission, minimumRole⟩ := requirements
    simp [Requirements.isEmpty] at h
    obtain ⟨⟨h1, h2⟩, h3⟩ := h
    simp [checkRequirements, h1, h2, h3]
  have hskip : ∀ entries : List (String × Requirements),
      (∀ e ∈ entries, startsWith route e.1 = false ∨ e.2.isEmpty = true) →
      ∀ rest, scanRoutes user route (entries ++ rest) = scanRoutes user route rest := by
    intro entries
    induction entries with
    | nil => intro _ rest; rfl
    | cons e entries ih =>
      intro h rest
      obtain ⟨pattern, requirements⟩ := e
      have ih2 := ih (fun e he => h e (List.mem_cons_of_mem _ he)) rest
      rcases h (pattern, requirements) (List.mem_cons_self _ _) with h1 | h1
      · simp only at h1
        simp [scanRoutes, h1, ih2]
      · simp only at h1
        cases hm : startsWith route pattern <;> simp [scanRoutes, hm, hempty _ h1, ih2]
  refine ⟨?_, ?_, ?_, ?_, ?_, ?_⟩
  · intro pattern requirements rest h
    refine ⟨hempty _ h, ?_⟩
    cases hm : startsWith route pattern <;> simp [scanRoutes, hm, hempty _ h]
  · intro pre pattern requirements post hpre hm hne
    have hdec : RoleRequirement.truthy requirements.role = true ∨
        truthy requirements.permission = true ∨ truthy requirements.minimumRole = true := by
      obtain ⟨role, permission, minimumRole⟩ := requirements
      simp only [Requirements.isEmpty] at hne
      cases h1 : RoleRequirement.truthy role
      · cases h2 : truthy permission
        · cases h3 : truthy minimumRole
          · simp [h1, h2, h3] at hne
          · exact Or.inr (Or.inr rfl)
        · exact Or.inr (Or.inl rfl)
      · exact Or.inl rfl
    obtain ⟨result, hres⟩ := checkRequirements_decides user requirements hdec
    refine ⟨result, hres, ?_⟩
    rw [hskip pre hpre]
    simp [scanRoutes, hm, hres]
  · intro entries h
    have := hskip entries h []
    simpa [scanRoutes] using this
  · intro entries hne
    simp [canAccessRoute, hne]
  · intro r permission minimumRole hr
    cases r <;> simp [checkRequirements, hr]
  · intro role p minimumRole hr hp
    simp [checkRequirements, hr, truthy, hp]

theorem scanRoutes_filter (user : Option User) (route : String)
    (entries : List (String × Requirements)) :
    scanRoutes user route entries =
      scanRoutes user route (entries.filter (fun e => startsWith route e.1)) := by
  induction entries with
  | nil => rfl
  | cons e rest ih =>
    obtain ⟨pattern, requirements⟩ := e
    cases hm : startsWith route pattern with
    | false => simp [scanRoutes, List.filter, hm, ih]
    | true =>
      cases hc : checkRequirements user requirements <;>
        simp [scanRoutes, List.filter, hm, hc, ih]

theorem filter_match_of_pairwise (route : String) (entries : List (String × Requirements))
    (hp : entries.Pairwise
      (fun a b => startsWith a.1 b.1 = false ∧ startsWith b.1 a.1 = false)) :
    entries.filter (fun e => startsWith route e.1) = [] ∨
    ∃ e ∈ entries, startsWith route e.1 = true ∧
      entries.filter (fun e => startsWith route e.1) = [e] := by
  induction entries with
  | nil => exact Or.inl rfl
  | cons e rest ih =>
    rw [List.pairwise_cons] at hp
    obtain ⟨hrel, hrest⟩ := hp
    cases hm : startsWith route e.1 with
    | true =>
      right
      refine ⟨e, List.mem_cons_self _ _, hm, ?_⟩
      have hnone : rest.filter (fun e => startsWith route e.1) = [] := by
        rw [List.filter_eq_nil_iff]
        intro b hb
        have := startsWith_incomparable route e.1 b.1 hm (hrel b hb).1 (hrel b hb).2
        simp [this]
      simp [List.filter, hm, hnone]
    | false =>
      rcases ih hrest with h | ⟨b, hb, hbm, hf⟩
      · left
        simp [List.filter, hm, h]
      · right
        exact ⟨b, List.mem_cons_of_mem _ hb, hbm, by simp [List.filter, hm, hf]⟩

theorem ROUTE_CONFIG_pairwise :
    ROUTE_CONFIG.Pairwise
      (fun a b => startsWith a.1 b.1 = false ∧ startsWith b.1 a.1 = false) := by
  decide

theorem ROUTE_CONFIG_matches (route : String) :
    ROUTE_CONFIG.filter (fun e => startsWith route e.1) = [] ∨
    ∃ e ∈ ROUTE_CONFIG, startsWith route e.1 = true ∧
      ROUTE_CONFIG.filter (fun e => startsWith route e.1) = [e] :=
  filter_match_of_pairwise route ROUTE_CONFIG ROUTE_CONFIG_pairwise

theorem scanRoutes_perm_ROUTE_CONFIG (user : Option User) (route : String)
    (table : List (String × Requirements)) (hperm : table.Perm ROUTE_CONFIG) :
    scanRoutes user route table = scanRoutes user route ROUTE_CONFIG := by
  rw [scanRoutes_filter user route table, scanRoutes_filter user route ROUTE_CONFIG]
  have hf := hperm.filter (fun e => startsWith route e.1)
  rcases ROUTE_CONFIG_matches route with h | ⟨e, _, _, h⟩
  · rw [h] at hf ⊢
    rw [List.perm_nil.mp hf]
  · rw [h] at hf ⊢
    rw [List.perm_singleton.mp hf]

/-! ## Order of the production table -/

/-- C33: no key of `ROUTE_CONFIG` is a string-prefix of another key; hence
for every path at most one entry matches, and `canAccessRoute` gives the
same result on every table that is a reordering of the entries of
`ROUTE_CONFIG`. -/
theorem ROUTE_CONFIG_order_irrelevant :
    (∀ a ∈ ROUTE_CONFIG, ∀ b ∈ ROUTE_CONFIG, a.1 ≠ b.1 → startsWith b.1 a.1 = false) ∧
    (∀ route : String,
      (ROUTE_CONFIG.filter (fun e => startsWith route e.1)).length ≤ 1) ∧
    (∀ (user : Option User) (route : String) (table : List (String × Requirements)),
      table.Perm ROUTE_CONFIG →
      canAccessRoute user route (some table) =
        canAccessRoute user route (some ROUTE_CONFIG)) := by
  refine ⟨by decide, ?_, ?_⟩
  · intro route
    rcases ROUTE_CONFIG_matches route with h | ⟨e, _, _, h⟩ <;> simp [h]
  · intro user route table hperm
    by_cases hne : route = ""
    · simp [canAccessRoute, hne]
    · simp only [canAccessRoute, if_neg hne]
      exact scanRoutes_perm_ROUTE_CONFIG user route table hperm

theorem ROUTE_CONFIG_order_irrelevant_witness :
    canAccessRoute (some ⟨some "moderator", some "u1", none⟩) "/api/users/42"
      (some ROUTE_CONFIG.reverse) =
    canAccessRoute (some ⟨some "moderator", some "u1", none⟩) "/api/users/42"
      (some ROUTE_CONFIG) :=
  ROUTE_CONFIG_order_irrelevant.2.2 (some ⟨some "moderator", some "u1", none⟩)
    "/api/users/42" ROUTE_CONFIG.reverse (List.reverse_perm ROUTE_CONFIG)

theorem level_cases (u : User) (a : Int) (hv : isValidRole u.role = true)
    (ha : getRoleLevel u.role = .number a) :
    (u.role = some "user" ∧ a = 0) ∨ (u.role = some "moderator" ∧ a = 1) ∨
      (u.role = some "admin" ∧ a = 2) := by
  rcases valid_role_cases u hv with ⟨hr, hl, _⟩ | ⟨hr, hl, _⟩ | ⟨hr, hl, _⟩ <;>
    rw [hl] at ha <;> simp only [LevelValue.number.injEq] at ha <;> subst ha
  · exact Or.inl ⟨hr, rfl⟩
  · exact Or.inr (Or.inl ⟨hr, rfl⟩)
  · exact Or.inr (Or.inr ⟨hr, rfl⟩)

theorem canAccessRoute_single_match (user : Option User) (route : String)
    (e : String × Requirements) (hne : route ≠ "")
    (hm : startsWith route e.1 = true)
    (hf : ROUTE_CONFIG.filter (fun e => startsWith route e.1) = [e]) :
    canAccessRoute user route (some ROUTE_CONFIG) =
      match checkRequirements user e.2 with
      | some result => result
      | none => .ok true := by
  simp only [canAccessRoute, if_neg hne]
  rw [scanRoutes_filter, hf]
  obtain ⟨pattern, requirements⟩ := e
  simp only at hm
  cases hc : checkRequirements user requirements <;> simp [scanRoutes, hm, hc]

theorem ROUTE_CONFIG_min_level (route : String) :
    ∃ k : Int, ∀ (u : User) (a : Int), isValidRole u.role = true →
      getRoleLevel u.role = .number a →
      canAccessRoute (some u) route (some ROUTE_CONFIG) = .ok (decide (k ≤ a)) := by
  have hopen : ∀ (u : User) (a : Int), isValidRole u.role = true →
      getRoleLevel u.role = .number a → (true = decide ((0 : Int) ≤ a)) := by
    intro u a hv ha
    rcases level_cases u a hv ha with ⟨_, h⟩ | ⟨_, h⟩ | ⟨_, h⟩ <;> subst h <;> decide
  by_cases hne : route = ""
  · refine ⟨0, fun u a hv ha => ?_⟩
    rw [← hopen u a hv ha]
    simp [canAccessRoute, hne]
  · rcases ROUTE_CONFIG_matches route with h | ⟨e, he, hm, h⟩
    · refine ⟨0, fun u a hv ha => ?_⟩
      rw [← hopen u a hv ha]
      simp only [canAccessRoute, if_neg hne]
      rw [scanRoutes_filter, h]
      rfl
    · simp only [ROUTE_CONFIG, List.mem_cons, List.mem_singleton, List.not_mem_nil,
        or_false] at he
      rcases he with rfl | rfl | rfl | rfl | rfl | rfl
      · refine ⟨2, fun u a hv ha => ?_⟩
        rw [canAccessRoute_single_match (some u) route _ hne hm h]
        rcases level_cases u a hv ha with ⟨hr, h⟩ | ⟨hr, h⟩ | ⟨hr, h⟩ <;> subst h <;>
          simp [checkRequirements, RoleRequirement.truthy, ROLES.ADMIN, hasRole, truthy, hr]
      · refine ⟨1, fun u a hv ha => ?_⟩
        rw [canAccessRoute_single_match (some u) route _ hne hm h]
        rcases level_cases u a hv ha with ⟨hr, h⟩ | ⟨hr, h⟩ | ⟨hr, h⟩ <;> subst h <;>
          simp [checkRequirements, RoleRequirement.truthy, ROLES.ADMIN, ROLES.MODERATOR,
            hasAnyRole, truthy, hr]
      · refine ⟨1, fun u a hv ha => ?_⟩
        rw [canAccessRoute_single_match (some u) route _ hne hm h]
        have hmin := hasMinimumRole_moderator_valid u hv
        rcases level_cases u a hv ha with ⟨hr, h⟩ | ⟨hr, h⟩ | ⟨hr, h⟩ <;> subst h <;>
          simp [checkRequirements, RoleRequirement.truthy, ROLES.MODERATOR, truthy, hmin, hr]
      · refine ⟨2, fun u a hv ha => ?_⟩
        rw [canAccessRoute_single_match (some u) route _ hne hm h]
        rcases level_cases u a hv ha with ⟨hr, h⟩ | ⟨hr, h⟩ | ⟨hr, h⟩ <;> subst h <;>
          simp [checkRequirements, RoleRequirement.truthy, ROLES.ADMIN, hasRole, truthy, hr]
      · refine ⟨0, fun u a hv ha => ?_⟩
        rw [canAccessRoute_single_match (some u) route _ hne hm h]
        have hmin := hasMinimumRole_user_valid u hv
        rw [← hopen u a hv ha]
        simp [checkRequirements, RoleRequirement.truthy, ROLES.USER, truthy, hmin]
      · refine ⟨0, fun u a hv ha => ?_⟩
        rw [canAccessRoute_single_match (some u) route _ hne hm h]
        have hmin := hasMinimumRole_user_valid u hv
        rw [← hopen u a hv ha]
        simp [checkRequirements, RoleRequirement.truthy, ROLES.USER, truthy, hmin]

/-! ## Monotonicity in privilege -/

/-- C34: route access under `ROUTE_CONFIG` is monotone in privilege: for two
identities with valid roles whose levels satisfy `a <= b` and every path, if
`canAccessRoute` is true for the first it is true for the second. -/
theorem canAccessRoute_monotone (u1 u2 : User) (a b : Int) (route : String)
    (hv1 : isValidRole u1.role = true) (hv2 : isValidRole u2.role = true)
    (ha : getRoleLevel u1.role = .number a) (hb : getRoleLevel u2.role = .number b)
    (hle : a ≤ b)
    (h1 : canAccessRoute (some u1) route (some ROUTE_CONFIG) = .ok true) :
    canAccessRoute (some u2) route (some ROUTE_CONFIG) = .ok true := by
  obtain ⟨k, hk⟩ := ROUTE_CONFIG_min_level route
  rw [hk u1 a hv1 ha] at h1
  rw [hk u2 b hv2 hb]
  have hka : k ≤ a := by simpa using h1
  have hkb : k ≤ b := le_trans hka hle
  simp [hkb]

theorem canAccessRoute_monotone_witness :
    canAccessRoute (some ⟨some "admin", some "u2", none⟩) "/moderator/tools"
      (some ROUTE_CONFIG) = .ok true :=
  canAccessRoute_monotone ⟨some "moderator", some "u1", none⟩ ⟨some "admin", some "u2", none⟩
    1 2 "/moderator/tools" (by decide) (by decide) (by decide) (by decide) (by decide)
    (by decide)

theorem hasPermission_mono (u1 u2 : User) (a b : Int) (p : String)
    (hv1 : isValidRole u1.role = true) (hv2 : isValidRole u2.role = true)
    (ha : getRoleLevel u1.role = .number a) (hb : getRoleLevel u2.role = .number b)
    (hle : a ≤ b) (hp : hasPermission (some u1) p = .ok true) :
    hasPermission (some u2) p = .ok true := by
  rcases valid_role_cases u1 hv1 with ⟨_, hl1, hp1⟩ | ⟨_, hl1, hp1⟩ | ⟨_, hl1, hp1⟩ <;>
  rcases valid_role_cases u2 hv2 with ⟨_, hl2, hp2⟩ | ⟨_, hl2, hp2⟩ | ⟨_, hl2, hp2⟩ <;>
  rw [hl1] at ha <;> rw [hl2] at hb <;>
  simp only [LevelValue.number.injEq] at ha hb <;>
  subst ha <;> subst hb <;>
  first
    | omega
    | (rw [hp2]
       rw [hp1] at hp
       simp only [Except.ok.injEq, contains_eq_true_iff] at hp ⊢
       first
         | exact hp
         | exact mem_moderator_of_mem_user _ hp
         | exact mem_admin_of_mem_moderator _ hp
         | exact mem_admin_of_mem_moderator _ (mem_moderator_of_mem_user _ hp))

theorem hasPermission_returns_of_valid (u : User) (p : String)
    (hv : isValidRole u.role = true) : ∃ b, hasPermission (some u) p = .ok b := by
  rcases valid_role_cases u hv with ⟨_, _, hp⟩ | ⟨_, _, hp⟩ | ⟨_, _, hp⟩ <;>
    exact ⟨_, hp p⟩

theorem ownsResource_same_ids (u1 u2 : User) (resource : Option (List (String × OwnerValue)))
    (f : Option String) (h1 : u1._id = u2._id) (h2 : u1.id = u2.id) :
    ownsResource (some u1) resource f = ownsResource (some u2) resource f := by
  cases resource with
  | none => rfl
  | some r => simp [ownsResource, h1, h2]

theorem edit_rule_mono (a1 o1 a2 o2 owns : Bool) (ha : a1 = true → a2 = true)
    (ho : o1 = true → o2 = true) (h : (a1 || (owns && o1)) = true) :
    (a2 || (owns && o2)) = true := by
  cases a1 <;> cases o1 <;> cases owns <;> simp_all

/-- C35: edit and delete authorization is monotone in privilege: for two
identities with the same id fields and valid roles whose levels satisfy
`a <= b`, every resource, every pair of permission strings and every owner
field, `canEditResource` true for the first identity implies
`canEditResource` true for the second, and likewise `canDeleteResource`. -/
theorem canEditResource_monotone (u1 u2 : User) (a b : Int)
    (resource : Option (List (String × OwnerValue))) (own any : String) (f : Option String)
    (hv1 : isValidRole u1.role = true) (hv2 : isValidRole u2.role = true)
    (hid1 : u1._id = u2._id) (hid2 : u1.id = u2.id)
    (ha : getRoleLevel u1.role = .number a) (hb : getRoleLevel u2.role = .number b)
    (hle : a ≤ b) :
    (canEditResource (some u1) resource own any f = .ok true →
      canEditResource (some u2) resource own any f = .ok true) ∧
    (canDeleteResource (some u1) resource own any f = .ok true →
      canDeleteResource (some u2) resource own any f = .ok true) := by
  obtain ⟨a1, ha1⟩ := hasPermission_returns_of_valid u1 any hv1
  obtain ⟨o1, ho1⟩ := hasPermission_returns_of_valid u1 own hv1
  obtain ⟨a2, ha2⟩ := hasPermission_returns_of_valid u2 any hv2
  obtain ⟨o2, ho2⟩ := hasPermission_returns_of_valid u2 own hv2
  have hany : a1 = true → a2 = true := by
    intro h
    subst h
    have := hasPermission_mono u1 u2 a b any hv1 hv2 ha hb hle ha1
    rw [ha2] at this
    exact Except.ok.inj this
  have hown : o1 = true → o2 = true := by
    intro h
    subst h
    have := hasPermission_mono u1 u2 a b own hv1 hv2 ha hb hle ho1
    rw [ho2] at this
    exact Except.ok.inj this
  have howns := ownsResource_same_ids u1 u2 resource f hid1 hid2
  constructor
  · rw [canEditResource_eval u1 resource own any f a1 o1 ha1 ho1,
      canEditResource_eval u2 resource own any f a2 o2 ha2 ho2, ← howns]
    intro h
    have h' := Except.ok.inj h
    rw [edit_rule_mono a1 o1 a2 o2 _ hany hown h']
  · rw [canDeleteResource_eval u1 resource own any f a1 o1 ha1 ho1,
      canDeleteResource_eval u2 resource own any f a2 o2 ha2 ho2, ← howns]
    intro h
    have h' := Except.ok.inj h
    rw [edit_rule_mono a1 o1 a2 o2 _ hany hown h']

theorem canEditResource_monotone_witness :
    (canEditResource (some ⟨some "user", some "u1", none⟩)
        (some [("createdBy", OwnerValue.bare "u1")]) "edit_own_forum" "edit_any_forum" none =
        .ok true →
      canEditResource (some ⟨some "moderator", some "u1", none⟩)
        (some [("createdBy", OwnerValue.bare "u1")]) "edit_own_forum" "edit_any_forum" none =
        .ok true) ∧
    (canDeleteResource (some ⟨some "user", some "u1", none⟩)
        (some [("createdBy", OwnerValue.bare "u1")]) "edit_own_forum" "edit_any_forum" none =
        .ok true →
      canDeleteResource (some ⟨some "moderator", some "u1", none⟩)
        (some [("createdBy", OwnerValue.bare "u1")]) "edit_own_forum" "edit_any_forum" none =
        .ok true) :=
  canEditResource_monotone ⟨some "user", some "u1", none⟩ ⟨some "moderator", some "u1", none⟩
    0 1 (some [("createdBy", OwnerValue.bare "u1")]) "edit_own_forum" "edit_any_forum" none
    (by decide) (by decide) rfl rfl (by decide) (by decide) (by decide)

theorem hasAnyRole_eq_hasMinimumRole_moderator (user : Option User) :
    hasAnyRole user (some (.anyOf ["admin", "moderator"])) =
      hasMinimumRole user (some "moderator") := by
  cases user with
  | none => rfl
  | some u =>
    cases hv : isValidRole u.role with
    | true =>
      rw [hasAnyRole_admin_moderator_valid u hv, hasMinimumRole_moderator_valid u hv]
      simp [or_comm]
    | false =>
      rw [hasMinimumRole_invalid_role u "moderator" (by decide) hv]
      cases hr : u.role with
      | none => simp [hasAnyRole, hr, truthy]
      | some r =>
        rw [hr] at hv
        have h1 : r ≠ "admin" := by
          intro h
          subst h
          exact absurd hv (by decide)
        have h2 : r ≠ "moderator" := by
          intro h
          subst h
          exact absurd hv (by decide)
        cases ht : truthy (some r) <;> simp [hasAnyRole, hr, ht, h1, h2]

/-! ## Navigation links and the client-side hook -/

/-- C36: for every identity (or none), the condition under which
`Navigation` shows the Admin link, the hook's `hasRole('admin')`, equals
`canAccessRoute(identity, '/admin', ROUTE_CONFIG)`, and the condition for the
Moderator link, the hook's `hasMinimumRole('moderator')`, equals
`canAccessRoute(identity, '/moderator', ROUTE_CONFIG)`. -/
theorem navigation_agrees_with_gate (user : Option User) :
    canAccessRoute user "/admin" (some ROUTE_CONFIG) = .ok (Navigation.showsAdminLink user) ∧
    canAccessRoute user "/moderator" (some ROUTE_CONFIG) =
      .ok (Navigation.showsModeratorLink user) := by
  have h1 : startsWith "/admin" "/admin" = true := by decide
  have h2 : startsWith "/moderator" "/admin" = false := by decide
  have h3 : startsWith "/moderator" "/moderator" = true := by decide
  have e1 : ("/admin" : String) ≠ "" := by decide
  have e2 : ("/moderator" : String) ≠ "" := by decide
  constructor
  · have : Navigation.showsAdminLink user = hasRole user (some "admin") := rfl
    rw [this]
    simp [canAccessRoute, e1, ROUTE_CONFIG, scanRoutes, h1, checkRequirements,
      RoleRequirement.truthy, ROLES.ADMIN]
  · have : Navigation.showsModeratorLink user = hasMinimumRole user (some "moderator") := rfl
    rw [this, ← hasAnyRole_eq_hasMinimumRole_moderator user]
    simp [canAccessRoute, e2, ROUTE_CONFIG, scanRoutes, h2, h3, checkRequirements,
      RoleRequirement.truthy, ROLES.ADMIN, ROLES.MODERATOR]

theorem usePermission_agrees_on_role_checks (user : Option User) :
    (∀ p, UsePermission.can user p = hasPermission user p) ∧
    (∀ r, UsePermission.hasRole user r = hasRole user r) ∧
    (∀ rs, UsePermission.hasAnyRole user rs = hasAnyRole user rs) ∧
    (∀ m, UsePermission.hasMinimumRole user m = hasMinimumRole user m) :=
  ⟨fun _ => rfl, fun _ => rfl, fun _ => rfl, fun _ => rfl⟩

theorem usePermission_ownsResource_agrees (u : User)
    (resource : Option (List (String × OwnerValue))) (f : Option String)
    (h : truthy u._id = false ∨ u._id = u.id) :
    UsePermission.ownsResource (some u) resource f = ownsResource (some u) resource f := by
  have hid : jsOr u._id u.id = u.id := by
    rcases h with h | h
    · simp [jsOr, h]
    · simp [jsOr, h]
  cases resource with
  | none => rfl
  | some r =>
    simp only [UsePermission.ownsResource, ownsResource, hid]

/-- C37, failing input: a session user that carries its id in `_id` and has
no `id`, with a resource it created. The evaluator of `rbac.js` resolves the
user's id as `_id`, else `id`, and returns true; the hook reads `user.id`
alone, finds `undefined`, and returns false. The same happens when `_id` and
`id` differ. -/
theorem usePermission_ownsResource_differs :
    ownsResource (some ⟨some "user", some "A", none⟩)
      (some [("createdBy", OwnerValue.bare "A")]) none = true ∧
    UsePermission.ownsResource (some ⟨some "user", some "A", none⟩)
      (some [("createdBy", OwnerValue.bare "A")]) none = false ∧
    ownsResource (some ⟨some "user", some "A", some "B"⟩)
      (some [("createdBy", OwnerValue.bare "B")]) none = false ∧
    UsePermission.ownsResource (some ⟨some "user", some "A", some "B"⟩)
      (some [("createdBy", OwnerValue.bare "B")]) none = true := by
  decide

theorem validRoles_eq_isValidRole (r : String) :
    List.contains ["user", "moderator", "admin"] r = isValidRole (some r) := by
  cases h : isValidRole (some r) with
  | true =>
    rcases (isValidRole_iff (some r)).mp h with h1 | h1 | h1 <;>
      · have := Option.some.inj h1
        subst this
        decide
  | false =>
    simp [isValidRole, ROLES.ADMIN, ROLES.MODERATOR, ROLES.USER] at h
    obtain ⟨h1, h2, h3⟩ := h
    simp [h1, h2, h3]

theorem role_tables_agree_off_prototype (r : String) (hp : objectPrototypeGet r = none) :
    (isValidRole (some r) = true ↔ getRoleLevel (some r) ≠ .number (-1)) ∧
    (isValidRole (some r) = true ↔ getRolePermissions (some r) ≠ .array []) := by
  cases h : isValidRole (some r) with
  | false =>
    simp [getRoleLevel_unknown r h hp, getRolePermissions_unknown r h hp]
  | true =>
    rcases (isValidRole_iff (some r)).mp h with h1 | h1 | h1 <;>
      · have := Option.some.inj h1
        subst this
        simp
        decide

/-! ## Agreement of the role tables, and the catalog -/

/-- C38, failing input: for `constructor` (and `hasOwnProperty`),
`isValidRole` is false, yet `getRoleLevel` is not `-1` and
`getRolePermissions` is not the empty list: both lookups return the function
inherited from `Object.prototype`. -/
theorem role_tables_disagree_on_inherited_names :
    isValidRole (some "constructor") = false ∧
    getRoleLevel (some "constructor") ≠ .number (-1) ∧
    getRolePermissions (some "constructor") ≠ .array [] ∧
    isValidRole (some "hasOwnProperty") = false ∧
    getRoleLevel (some "hasOwnProperty") = .inherited (.builtinFunction "hasOwnProperty") ∧
    getRolePermissions (some "hasOwnProperty") =
      .inherited (.builtinFunction "hasOwnProperty") := by
  decide

theorem ADMIN_PERMISSIONS_subset_values : ∀ p ∈ ADMIN_PERMISSIONS, p ∈ PERMISSIONS.values := by
  decide

theorem values_subset_ADMIN_PERMISSIONS : ∀ p ∈ PERMISSIONS.values, p ∈ ADMIN_PERMISSIONS := by
  decide

theorem hasPermission_within_catalog (user : Option User) (p : String)
    (h : hasPermission user p = .ok true) : p ∈ PERMISSIONS.values := by
  cases user with
  | none => simp [hasPermission] at h
  | some u =>
    cases hv : isValidRole u.role with
    | false => exact absurd h (hasPermission_invalid_role u p hv)
    | true =>
      apply ADMIN_PERMISSIONS_subset_values
      rcases valid_role_cases u hv with ⟨_, _, hp⟩ | ⟨_, _, hp⟩ | ⟨_, _, hp⟩ <;>
        rw [hp] at h <;>
        simp only [Except.ok.injEq, contains_eq_true_iff] at h
      · exact mem_admin_of_mem_moderator _ (mem_moderator_of_mem_user _ h)
      · exact mem_admin_of_mem_moderator _ h
      · exact h

/-- C39: the admin permission list is a duplicate-free enumeration of exactly
the permission catalog: the catalog has 29 distinct values, each occurs
exactly once in `getRolePermissions('admin')`, and every element of that list
is a catalog value; hence `hasPermission` of an admin identity is true iff
the permission is in the catalog, and no identity, whatever its role, holds a
permission outside the catalog. -/
theorem admin_permissions_are_the_catalog :
    PERMISSIONS.values.length = 29 ∧
    PERMISSIONS.values.Nodup ∧
    getRolePermissions (some "admin") = .array ADMIN_PERMISSIONS ∧
    ADMIN_PERMISSIONS.Nodup ∧
    (∀ p ∈ PERMISSIONS.values, ADMIN_PERMISSIONS.count p = 1) ∧
    (∀ p ∈ ADMIN_PERMISSIONS, p ∈ PERMISSIONS.values) ∧
    (∀ (u : User) (p : String), u.role = some "admin" →
      (hasPermission (some u) p = .ok true ↔ p ∈ PERMISSIONS.values)) ∧
    (∀ (user : Option User) (p : String),
      hasPermission user p = .ok true → p ∈ PERMISSIONS.values) := by
  refine ⟨by decide, by decide, by decide, by decide, by decide,
    ADMIN_PERMISSIONS_subset_values, ?_, hasPermission_within_catalog⟩
  intro u p hr
  rw [hasPermission_admin u p hr]
  simp only [Except.ok.injEq, contains_eq_true_iff]
  exact ⟨ADMIN_PERMISSIONS_subset_values p, values_subset_ADMIN_PERMISSIONS p⟩

end Rbac
